import Mathlib

/-!
# DDRP — shallow embedding and verification of the core specification claims

This file embeds the three core components of the DDRP repository
(operator detector, obligation engine, hash-chained transaction ledger)
as executable Lean definitions translated from the TypeScript sources

  * `src/src/transaction_log_v0_2.ts`   (ledger + v0.1 detector module)
  * `src/unnamed/part_007`              (obligation engine, `obligations_v0_1`)
  * `src/unnamed/part_011`              (browser bundle; identical core logic)

and proves or refutes the frozen specification claims about them.

Modelling conventions
* JavaScript regular-expression execution (`RegExp.exec` with the `g` flag) is
  an external deterministic primitive; a pattern's matcher is embedded as a
  pure function `exec : text → lastIndex → Option (RawMatch × newLastIndex)`.
  The mutable `lastIndex` cursor of a `g`-regex is threaded explicitly.
* `crypto.createHash('sha256')...digest('hex')` is an external primitive;
  ledger functions are parametrised by `sha256hex : String → String`, the
  full hex digest, and the repository's `sha256` wrapper (which truncates
  to 16 hex characters) is defined on top of it.
* The filesystem-backed transaction directory is modelled as the sequence of
  records it holds, in ascending storage-key order (`Option` distinguishes a
  missing directory from an empty one, mirroring the two early returns of
  `verifyTransactionChain`).
* JavaScript string indices are UTF-16 code units; Lean strings are unicode
  scalar sequences.  The two agree on all ASCII material handled here.
-/

-- ============================================================================
-- JavaScript numeric and string primitives used by the sources
-- ============================================================================

/-- ToInt32 conversion of ECMAScript: reduce an integer modulo 2^32 into the
signed range [-2^31, 2^31). Used by the bit operations in `simpleHash`. -/
def toInt32 (x : Int) : Int :=
  let m := x.emod 4294967296
  if m < 2147483648 then m else m - 4294967296

/-- Hexadecimal digit character for a value below 16 (lowercase, as produced
by JavaScript `Number.prototype.toString(16)`). -/
def hexDigit (n : Nat) : Char :=
  if n < 10 then Char.ofNat (48 + n) else Char.ofNat (87 + n)

/-- Auxiliary recursion for `hexRepr`, peeling hex digits from the low end;
structural recursion on a fuel bound (`n / 16 < n` for `n ≠ 0`, so fuel
`n + 1` always suffices and the fuel case is never the one that stops). -/
def hexReprAux : Nat → Nat → List Char → List Char
  | 0, _, acc => acc
  | fuel + 1, n, acc =>
    if n = 0 then acc
    else hexReprAux fuel (n / 16) (hexDigit (n % 16) :: acc)

/-- JavaScript `Number.prototype.toString(16)` for a non-negative integer:
lowercase hex digits, no leading zeros, `"0"` for zero. -/
def hexRepr (n : Nat) : String :=
  if n = 0 then "0" else String.mk (hexReprAux (n + 1) n [])

/-- JavaScript `String.prototype.padStart(len, pad)` for a single-character
pad: prepend copies of `pad` until the string has at least `len` characters. -/
def padStart (s : String) (len : Nat) (pad : Char) : String :=
  String.mk (List.replicate (len - s.length) pad) ++ s

/-- Embedding of `simpleHash` (operators module): the deterministic
non-cryptographic 32-bit rolling hash
`hash = ((hash << 5) - hash) + charCode; hash = hash & hash`, rendered as
`Math.abs(hash).toString(16).padStart(8, '0')`.  Character codes are taken
from unicode scalar values (identical to UTF-16 code units on ASCII input). -/
def simpleHash (str : String) : String :=
  let h := str.data.foldl
    (fun (hash : Int) (c : Char) => toInt32 (toInt32 (hash * 32) - hash + c.toNat)) 0
  padStart (hexRepr h.natAbs) 8 '0'

-- ============================================================================
-- Model of `String.prototype.localeCompare` (Node.js root-locale collation)
-- ============================================================================

/-- Primary collation weight of a character under the root locale used by
Node's `localeCompare` (ICU default collation), restricted to the ASCII
range that pattern ids draw from: punctuation (`_`) sorts before digits,
digits before letters.  Characters outside that range keep their code-point
order above all of them (never exercised by the registry's ids). -/
def ucaWeight (c : Char) : Nat :=
  if c = '_' then 0
  else if c.isDigit then 256 + c.toNat
  else if c.isAlpha then 512 + c.toNat
  else 1024 + c.toNat

/-- Weak lexicographic order on weight lists (`true` iff first ≤ second). -/
def weightListLe : List Nat → List Nat → Bool
  | [], _ => true
  | _ :: _, [] => false
  | x :: xs, y :: ys => x < y || (x = y && weightListLe xs ys)

/-- Model of `a.localeCompare(b) <= 0` under the root locale: compare the
primary collation weights of the characters lexicographically. -/
def localeLe (a b : String) : Bool :=
  weightListLe (a.data.map ucaWeight) (b.data.map ucaWeight)

/-- Plain code-point lexicographic order on strings (`true` iff first ≤
second); this is the "lexicographic order" the specification speaks of. -/
def lexLe (a b : String) : Bool :=
  weightListLe (a.data.map Char.toNat) (b.data.map Char.toNat)

-- ============================================================================
-- Operator detector: data model (operators module, lines 344-379)
-- ============================================================================

/-- The six operator classes (`OperatorType`). -/
inductive OperatorType where
  | REQ | DEF | CAUSE | SCOPE | UNIV | ANCHOR
deriving DecidableEq, Repr

/-- `RequirementStrength` of a requirement operator. -/
inductive RequirementStrength where
  | hard | soft
deriving DecidableEq, Repr

/-- Metadata record attached to a match (`{strength?, negated?}`). -/
structure OpMetadata where
  strength : Option RequirementStrength := none
  negated : Option Bool := none
deriving DecidableEq, Repr

/-- Result of one successful `RegExp.exec` call: the match position
(`match.index`), the full matched text (`match[0]`) and the capture groups
(`match[1], match[2], ...`, `none` for an unmatched group). -/
structure RawMatch where
  index : Nat
  matched : String
  groups : List (Option String)
deriving DecidableEq, Repr

/-- Pure model of a compiled `g`-flag regular expression: from the subject
text and the current `lastIndex` cursor, produce the next match together
with the updated `lastIndex`, or `none` when no further match exists. -/
def ExecFun : Type := String → Nat → Option (RawMatch × Nat)

/-- `PatternDefinition` of the registry: id, operator class, matching rule
(modelled by its `exec` behaviour), capture names and optional metadata
extractor. -/
structure PatternDefinition where
  id : String
  op_type : OperatorType
  exec : ExecFun
  capture_names : List String
  metadata_extractor : Option (RawMatch → OpMetadata) := none

/-- `OperatorDetectorConfig`: a versioned pattern registry. -/
structure OperatorDetectorConfig where
  version : String
  patterns : List PatternDefinition

/-- `OperatorMatch` as produced by the detector.  `captures` models the JS
record `Record<string,string>` as an insertion-ordered association list. -/
structure OperatorMatch where
  op_type : OperatorType
  pattern_id : String
  char_start : Nat
  char_end : Nat
  matched_text : String
  captures : List (String × String)
  metadata : OpMetadata
deriving DecidableEq, Repr

/-- `DetectionResult` returned by `detect`. -/
structure DetectionResult where
  version : String
  pattern_count : Nat
  «matches» : List OperatorMatch
  input_hash : String
deriving DecidableEq, Repr

-- ============================================================================
-- Operator detector: algorithm (operators module, lines 761-810)
-- ============================================================================

/-- Property assignment on a JS object modelled as an association list:
overwrite an existing key in place, otherwise append at the end. -/
def assocSet {α : Type} (l : List (String × α)) (k : String) (v : α) :
    List (String × α) :=
  if (l.map Prod.fst).contains k then
    l.map (fun p => if p.1 = k then (k, v) else p)
  else l ++ [(k, v)]

/-- Capture extraction loop of `detect`: for each declared capture name `i`,
bind it to `match[i+1]` whenever that group participated in the match. -/
def buildCaptures (names : List (Option String × String)) :
    List (String × String) :=
  names.foldl
    (fun acc p => match p.1 with
      | some v => assocSet acc p.2 v
      | none => acc) []

/-- Align the declared capture names with the groups of a raw match
(`match[i+1]`, absent groups give `none`). -/
def zipGroups (capture_names : List String) (groups : List (Option String)) :
    List (Option String × String) :=
  capture_names.enum.map (fun p => ((groups.getD p.1 none), p.2))

/-- The `while ((match = pattern.exec(text)) !== null)` scan loop of `detect`,
threading the `lastIndex` cursor.  The fuel bound makes the recursion total;
a well-behaved `g`-regex advances `lastIndex` past each non-empty match, so
`text.length + 1` iterations are never exceeded on runs where the JS loop
terminates (a non-advancing `exec` would not terminate in JS either). -/
def scanAux (exec : ExecFun) (text : String) : Nat → Nat → List RawMatch
  | 0, _ => []
  | fuel + 1, lastIndex =>
    match exec text lastIndex with
    | none => []
    | some (m, lastIndex') => m :: scanAux exec text fuel lastIndex'

/-- Scan one pattern over the whole text.  The cursor is reset to 0 first,
mirroring `patternDef.pattern.lastIndex = 0` in `detect`. -/
def scanPattern (p : PatternDefinition) (text : String) : List RawMatch :=
  scanAux p.exec text (text.length + 1) 0

/-- Build the `OperatorMatch` record pushed by `detect` for one raw match. -/
def toOperatorMatch (p : PatternDefinition) (m : RawMatch) : OperatorMatch :=
  { op_type := p.op_type
    pattern_id := p.id
    char_start := m.index
    char_end := m.index + m.matched.length
    matched_text := m.matched
    captures := buildCaptures (zipGroups p.capture_names m.groups)
    metadata := match p.metadata_extractor with
      | some f => f m
      | none => {} }

/-- Comparator of the final sort of `detect`, as a boolean "less or equal":
ascending `char_start`, ties broken by `pattern_id.localeCompare`. -/
def matchLe (a b : OperatorMatch) : Bool :=
  a.char_start < b.char_start ||
    (a.char_start = b.char_start && localeLe a.pattern_id b.pattern_id)

/-- Unsorted match accumulation phase of `detect` (the `for` loop over the
registry, pushing every match of every pattern). -/
def collectMatches (cfg : OperatorDetectorConfig) (text : String) :
    List OperatorMatch :=
  cfg.patterns.flatMap (fun p => (scanPattern p text).map (toOperatorMatch p))

/-- Insert an element into a list directly before the first entry it compares
`le` to (stable insertion step). -/
def insertLe {α : Type} (le : α → α → Bool) (x : α) : List α → List α
  | [] => [x]
  | y :: ys => if le x y then x :: y :: ys else y :: insertLe le x ys

/-- Stable insertion sort.  `Array.prototype.sort` with a consistent
comparator is required (since ES2019) to be a stable sort, and a stable sort
w.r.t. a total preorder has a unique result, so any stable sorting algorithm
is an exact model of it. -/
def sortLe {α : Type} (le : α → α → Bool) : List α → List α
  | [] => []
  | x :: xs => insertLe le x (sortLe le xs)

/-- Embedding of `OperatorDetector.detect` / `detectOperators`: scan every
pattern, sort by `char_start` then `localeCompare(pattern_id)`, and return
the result together with the registry size and the `simpleHash` fingerprint
of the input. -/
def detect (cfg : OperatorDetectorConfig) (text : String) : DetectionResult :=
  { version := cfg.version
    pattern_count := cfg.patterns.length
    «matches» := sortLe matchLe (collectMatches cfg text)
    input_hash := simpleHash text }

/-- State-passing variant of `detect` making the mutable `lastIndex` cursors
of the registry's `g`-regexes explicit: the incoming cursor values are the
state, `detect` resets every cursor to 0 before scanning (line
`patternDef.pattern.lastIndex = 0`), and a `g`-regex whose `exec` returns
`null` resets its own cursor to 0, so the loop also leaves every cursor at 0. -/
def detectWithState (cfg : OperatorDetectorConfig) (_cursors : List Nat)
    (text : String) : DetectionResult × List Nat :=
  (detect cfg text, List.replicate cfg.patterns.length 0)

-- ============================================================================
-- Pattern Registry v0.1: the 49 pattern ids, in registry order
-- ============================================================================

/-- The ids of `PATTERNS_V0_1`, in registry order (operators module, lines
385-714; identical list in the browser bundle). -/
def v01PatternIds : List String :=
  ["REQ_MUST_001", "REQ_MUST_NOT_001", "REQ_SHALL_001", "REQ_SHALL_NOT_001",
   "REQ_REQUIRED_001", "REQ_PROHIBITED_001", "REQ_MAY_NOT_001",
   "REQ_SHOULD_001", "REQ_SHOULD_NOT_001", "REQ_RECOMMENDED_001",
   "DEF_QUOTED_MEANS_001", "DEF_QUOTED_MEANS_002", "DEF_TERM_MEANS_001",
   "DEF_DEFINED_AS_001", "DEF_FOR_PURPOSES_001",
   "CAUSE_BECAUSE_001", "CAUSE_THEREFORE_001", "CAUSE_THUS_001",
   "CAUSE_HENCE_001", "CAUSE_AS_RESULT_001", "CAUSE_IN_ORDER_TO_001",
   "CAUSE_DUE_TO_001", "CAUSE_CONSEQUENTLY_001",
   "SCOPE_IN_THIS_DOC_001", "SCOPE_FOR_PURPOSES_001", "SCOPE_UNDER_THIS_001",
   "SCOPE_FOR_USERS_001", "SCOPE_FOR_MINORS_001", "SCOPE_WITHIN_TIME_001",
   "SCOPE_UNLESS_001", "SCOPE_EXCEPT_001", "SCOPE_IN_JURISDICTION_001",
   "UNIV_ALL_001", "UNIV_ALWAYS_001", "UNIV_NEVER_001", "UNIV_NONE_001",
   "UNIV_EVERY_001", "UNIV_ONLY_001", "UNIV_ANY_001", "UNIV_NO_001",
   "ANCHOR_ACCORDING_TO_001", "ANCHOR_PER_001", "ANCHOR_PURSUANT_TO_001",
   "ANCHOR_AS_DEFINED_IN_001", "ANCHOR_CITATION_BRACKET_001",
   "ANCHOR_CITATION_PAREN_001", "ANCHOR_URL_001", "ANCHOR_ISO_001",
   "ANCHOR_RFC_001"]

-- ============================================================================
-- Claim C1: global ordering invariant of detection results
-- ============================================================================

/-- Ordering property claimed for detection output: `char_start` ascending,
ties in code-point lexicographic `pattern_id` order. -/
def matchOrdered (m1 m2 : OperatorMatch) : Prop :=
  m1.char_start < m2.char_start ∨
    (m1.char_start = m2.char_start ∧ lexLe m1.pattern_id m2.pattern_id = true)

/-- Matcher model that never matches (used to instantiate registry entries
whose rule is irrelevant to a concrete check). -/
def trivialExec : ExecFun := fun _ _ => none

/-- Matcher model producing exactly one given raw match on the first
`exec` call (cursor 0), then failing. -/
def execOnceRaw (m : RawMatch) (next : Nat) : ExecFun := fun _ li =>
  if li = 0 then some (m, next) else none

/-- Concrete instantiation of the v0.1 registry for closed checks: all 49
ids in registry order, two of them with the matcher behaviour the real
regexes exhibit on the text
`"for purposes of this document, Widget means a gadget."` — both
`DEF_FOR_PURPOSES_001` and `SCOPE_FOR_PURPOSES_001` match at position 0,
producing a `char_start` tie.  This is the raw match of
`DEF_FOR_PURPOSES_001`. -/
def rawDefForPurposes : RawMatch :=
  { index := 0, matched := "for purposes of this document, Widget means",
    groups := [some "Widget"] }

/-- The raw match `SCOPE_FOR_PURPOSES_001` produces on the same text. -/
def rawScopeForPurposes : RawMatch :=
  { index := 0, matched := "for purposes of",
    groups := [some "for purposes of"] }

/-- Registry entry used in closed checks. -/
def mkCheckPattern (id : String) : PatternDefinition :=
  { id := id
    op_type :=
      if id = "DEF_FOR_PURPOSES_001" then OperatorType.DEF
      else if id = "SCOPE_FOR_PURPOSES_001" then OperatorType.SCOPE
      else OperatorType.UNIV
    exec :=
      if id = "DEF_FOR_PURPOSES_001" then execOnceRaw rawDefForPurposes 43
      else if id = "SCOPE_FOR_PURPOSES_001" then
        execOnceRaw rawScopeForPurposes 15
      else trivialExec
    capture_names :=
      if id = "DEF_FOR_PURPOSES_001" then ["term"]
      else if id = "SCOPE_FOR_PURPOSES_001" then ["scope_phrase"]
      else ["quantifier"] }

/-- Concrete detector configuration carrying the 49 v0.1 pattern ids. -/
def cfgCheck : OperatorDetectorConfig :=
  { version := "0.1.0", patterns := v01PatternIds.map mkCheckPattern }

-- ============================================================================
-- Obligation engine: data model (obligations module, lines 23-59)
-- ============================================================================

/-- The four obligation types of v0.1 (`ObligationType`). -/
inductive ObligationType where
  | REQ_APPLICABILITY | DEF_CONSISTENCY | CAUSE_SUPPORT | SCOPE_BOUNDING
deriving DecidableEq, Repr

/-- `ObligationStatus`; `CONTRADICTED` and `AMBIGUOUS` are declared but
reserved. -/
inductive ObligationStatus where
  | SATISFIED | OPEN | CONTRADICTED | AMBIGUOUS
deriving DecidableEq, Repr

/-- The six WWWWHW evidence fields (`FieldName`). -/
inductive FieldName where
  | what | who | «where» | «when» | why | scope
deriving DecidableEq, Repr, Fintype

/-- `FieldEvidence` derived from one operator match. -/
structure FieldEvidence where
  field : FieldName
  source_op_id : String
  char_start : Nat
  char_end : Nat
  value : String
deriving DecidableEq, Repr

/-- `ObligationInstance` as produced by the engine. -/
structure ObligationInstance where
  obl_id : String
  obl_type : ObligationType
  trigger_op_id : String
  trigger_char_start : Nat
  trigger_char_end : Nat
  required_fields : List FieldName
  present_fields : List FieldName
  missing_fields : List FieldName
  status : ObligationStatus
  evidence : List FieldEvidence
deriving DecidableEq, Repr

/-- Per-status counters (`Record<ObligationStatus, number>`). -/
structure StatusSummary where
  SATISFIED : Nat
  OPEN : Nat
  CONTRADICTED : Nat
  AMBIGUOUS : Nat
deriving DecidableEq, Repr

/-- `ObligationResult` returned by `instantiateObligations`. -/
structure ObligationResult where
  version : String
  obligation_count : Nat
  obligations : List ObligationInstance
  status_summary : StatusSummary
deriving DecidableEq, Repr

/-- `REQUIRED_FIELDS` per obligation type (v0.1 authoritative table). -/
def REQUIRED_FIELDS : ObligationType → List FieldName
  | .REQ_APPLICABILITY => [.what, .who]
  | .DEF_CONSISTENCY => [.what]
  | .CAUSE_SUPPORT => [.why]
  | .SCOPE_BOUNDING => [.scope]

/-- `OPERATOR_TO_OBLIGATION`: which obligation type, if any, an operator
class triggers. -/
def OPERATOR_TO_OBLIGATION : OperatorType → Option ObligationType
  | .REQ => some .REQ_APPLICABILITY
  | .DEF => some .DEF_CONSISTENCY
  | .CAUSE => some .CAUSE_SUPPORT
  | .SCOPE => some .SCOPE_BOUNDING
  | .UNIV => none
  | .ANCHOR => none

-- ============================================================================
-- The three fixed sub-pattern tests of `extractFieldsFromMatch`
-- ============================================================================

/-- JS `\w` word character: ASCII letter, digit or underscore. -/
def isWordChar (c : Char) : Bool := c.isAlphanum || c = '_'

/-- Token of a sub-pattern: a case-insensitive literal, `\s+`, or `\d+`. -/
inductive RTok where
  | lit (w : String)
  | ws
  | digits

/-- Case-insensitive literal match; returns the unconsumed remainder. -/
def matchLitCI : List Char → List Char → Option (List Char)
  | [], s => some s
  | _ :: _, [] => none
  | w :: ws, c :: cs => if w.toLower = c.toLower then matchLitCI ws cs else none

/-- Consume one token; the tokens following `\s+` / `\d+` in all three
sub-patterns start with a non-whitespace / non-digit character, so greedy
consumption is exact. -/
def matchTok (t : RTok) (s : List Char) : Option (List Char) :=
  match t with
  | .lit w => matchLitCI w.data s
  | .ws =>
    let s' := s.dropWhile Char.isWhitespace
    if s'.length < s.length then some s' else none
  | .digits =>
    let s' := s.dropWhile Char.isDigit
    if s'.length < s.length then some s' else none

/-- Match a token sequence from the start of `s`. -/
def matchSeq : List RTok → List Char → Option (List Char)
  | [], s => some s
  | t :: ts, s =>
    match matchTok t s with
    | some s' => matchSeq ts s'
    | none => none

/-- Match one alternative at the current position, including the trailing
word boundary `\b` (every alternative ends in a word character). -/
def matchAltAt (toks : List RTok) (s : List Char) : Bool :=
  match matchSeq toks s with
  | some rest =>
    match rest with
    | [] => true
    | c :: _ => !isWordChar c
  | none => false

/-- Leading word boundary `\b`: satisfied at the start of the string or
after a non-word character. -/
def boundaryBefore : Option Char → Bool
  | none => true
  | some p => !isWordChar p

/-- Scan all start positions, tracking the preceding character for the
leading word boundary `\b` (every alternative starts with a word character). -/
def testAltsAux (alts : List (List RTok)) : Option Char → List Char → Bool
  | _, [] => false
  | prev, c :: cs =>
    (boundaryBefore prev && alts.any (fun a => matchAltAt a (c :: cs))) ||
      testAltsAux alts (some c) cs

/-- `RegExp.prototype.test` model for an alternation of token sequences
wrapped in `\b ... \b`, with the `i` flag. -/
def testPattern (alts : List (List RTok)) (s : String) : Bool :=
  testAltsAux alts none s.data

/-- Sub-pattern `who` of the SCOPE extraction case:
`\b(?:for\s+(?:all\s+)?(?:users|customers|clients|employees|members|participants|minors|children))\b` with flag `i`. -/
def testWhoPattern (s : String) : Bool :=
  testPattern
    ((["users", "customers", "clients", "employees", "members",
       "participants", "minors", "children"].map
        (fun r => [RTok.lit "for", RTok.ws, RTok.lit r])) ++
     (["users", "customers", "clients", "employees", "members",
       "participants", "minors", "children"].map
        (fun r => [RTok.lit "for", RTok.ws, RTok.lit "all", RTok.ws, RTok.lit r]))) s

/-- Sub-pattern `where`:
`\b(?:in\s+(?:the\s+)?(?:EU|US|UK|United\s+States|European\s+Union|California|Delaware))\b` with flag `i`. -/
def testWherePattern (s : String) : Bool :=
  testPattern
    (([[RTok.lit "EU"], [RTok.lit "US"], [RTok.lit "UK"],
       [RTok.lit "United", RTok.ws, RTok.lit "States"],
       [RTok.lit "European", RTok.ws, RTok.lit "Union"],
       [RTok.lit "California"], [RTok.lit "Delaware"]].map
        (fun j => [RTok.lit "in", RTok.ws] ++ j)) ++
     ([[RTok.lit "EU"], [RTok.lit "US"], [RTok.lit "UK"],
       [RTok.lit "United", RTok.ws, RTok.lit "States"],
       [RTok.lit "European", RTok.ws, RTok.lit "Union"],
       [RTok.lit "California"], [RTok.lit "Delaware"]].map
        (fun j => [RTok.lit "in", RTok.ws, RTok.lit "the", RTok.ws] ++ j))) s

/-- Sub-pattern `when`:
`\b(?:within\s+\d+\s+(?:days?|weeks?|months?|years?|hours?|minutes?|business\s+days?))\b` with flag `i`. -/
def testWhenPattern (s : String) : Bool :=
  testPattern
    ((["day", "days", "week", "weeks", "month", "months", "year", "years",
       "hour", "hours", "minute", "minutes"].map
        (fun u => [RTok.lit "within", RTok.ws, RTok.digits, RTok.ws, RTok.lit u])) ++
     [[RTok.lit "within", RTok.ws, RTok.digits, RTok.ws,
       RTok.lit "business", RTok.ws, RTok.lit "day"],
      [RTok.lit "within", RTok.ws, RTok.digits, RTok.ws,
       RTok.lit "business", RTok.ws, RTok.lit "days"]]) s

-- ============================================================================
-- Obligation engine: field extraction and instantiation
-- ============================================================================

/-- Embedding of `extractFieldsFromMatch`: the per-class, purely local field
evidence of one operator match.  JS truthiness of `match.captures['term']`
and the `||` fallback of `scopePhrase` treat a missing key and the empty
string alike. -/
def extractFieldsFromMatch (m : OperatorMatch) : List FieldEvidence :=
  match m.op_type with
  | .DEF =>
    match m.captures.lookup "term" with
    | some v =>
      if v = "" then []
      else [{ field := .what, source_op_id := m.pattern_id,
              char_start := m.char_start, char_end := m.char_end, value := v }]
    | none => []
  | .CAUSE =>
    [{ field := .why, source_op_id := m.pattern_id,
       char_start := m.char_start, char_end := m.char_end,
       value := m.matched_text }]
  | .SCOPE =>
    let scopePhrase :=
      match m.captures.lookup "scope_phrase" with
      | some v => if v = "" then m.matched_text else v
      | none => m.matched_text
    (if testWhoPattern scopePhrase then
      [{ field := .who, source_op_id := m.pattern_id,
         char_start := m.char_start, char_end := m.char_end,
         value := scopePhrase }] else []) ++
    (if testWherePattern scopePhrase then
      [{ field := .where, source_op_id := m.pattern_id,
         char_start := m.char_start, char_end := m.char_end,
         value := scopePhrase }] else []) ++
    (if testWhenPattern scopePhrase then
      [{ field := .when, source_op_id := m.pattern_id,
         char_start := m.char_start, char_end := m.char_end,
         value := scopePhrase }] else []) ++
    [{ field := .scope, source_op_id := m.pattern_id,
       char_start := m.char_start, char_end := m.char_end,
       value := scopePhrase }]
  | .REQ => []
  | .UNIV => []
  | .ANCHOR => []

/-- Embedding of `matchKey`: the string key identifying a match in the
evidence map. -/
def matchKey (m : OperatorMatch) : String :=
  m.pattern_id ++ ":" ++ Nat.repr m.char_start

/-- Phase 1 of `instantiateObligations`: the `allEvidence` map, modelled as
an insertion-ordered association list (`Map.set` overwrites in place). -/
def buildEvidenceMap (ms : List OperatorMatch) :
    List (String × List FieldEvidence) :=
  ms.foldl (fun acc m => assocSet acc (matchKey m) (extractFieldsFromMatch m)) []

/-- `FIELD_SEARCH_WINDOW` (characters). -/
def FIELD_SEARCH_WINDOW : Nat := 500

/-- The midpoint-distance test of `findNearbyFieldEvidence`:
`|midpoint(other) - midpoint(trigger)| <= 500`, stated on doubled midpoints
(`char_start + char_end`) to avoid the half-integer midpoints of odd spans. -/
def withinWindow (trigger other : OperatorMatch) : Bool :=
  ((other.char_start + other.char_end : Int) -
    (trigger.char_start + trigger.char_end)).natAbs ≤ 2 * FIELD_SEARCH_WINDOW

/-- Embedding of `findNearbyFieldEvidence`.  The source skips the trigger by
object identity (`match === triggerMatch`); array elements are pairwise
distinct objects, so identity is modelled by the position `ti` of the
trigger in the list. -/
def findNearbyFieldEvidence (ti : Nat) (triggerMatch : OperatorMatch)
    (allMatches : List OperatorMatch)
    (allEvidence : List (String × List FieldEvidence)) : List FieldEvidence :=
  (allMatches.enum.filter
      (fun p => p.1 ≠ ti && withinWindow triggerMatch p.2)).flatMap
    (fun p => (allEvidence.lookup (matchKey p.2)).getD [])

/-- The per-field deduplication loop of `instantiateObligations`
(`evidenceByField`): keep the first evidence item seen for each field,
in first-seen field order. -/
def dedupByField (evs : List FieldEvidence) : List FieldEvidence :=
  evs.foldl
    (fun acc ev =>
      if (acc.map (fun e => e.field)).contains ev.field then acc
      else acc ++ [ev]) []

/-- Embedding of `determineStatus`: `SATISFIED` iff every required field is
present, else `OPEN`. -/
def determineStatus (required present : List FieldName) : ObligationStatus :=
  if required.all (fun f => present.contains f) then .SATISFIED else .OPEN

/-- String name of an obligation type (as interpolated into ids). -/
def obligationTypeName : ObligationType → String
  | .REQ_APPLICABILITY => "REQ_APPLICABILITY"
  | .DEF_CONSISTENCY => "DEF_CONSISTENCY"
  | .CAUSE_SUPPORT => "CAUSE_SUPPORT"
  | .SCOPE_BOUNDING => "SCOPE_BOUNDING"

/-- Embedding of `generateObligationId`:
`` `OBL_${type}_${String(index).padStart(3, '0')}` ``. -/
def generateObligationId (t : ObligationType) (index : Nat) : String :=
  "OBL_" ++ obligationTypeName t ++ "_" ++ padStart (Nat.repr index) 3 '0'

/-- The `ObligationInstance` pushed by the phase-2 loop for the trigger match
`m` at position `i`, when the per-type counter has just been bumped to
`idx`. -/
def mkObligation (t : ObligationType) (idx : Nat) (i : Nat)
    (m : OperatorMatch) (ms : List OperatorMatch)
    (allEvidence : List (String × List FieldEvidence)) : ObligationInstance :=
  let required := REQUIRED_FIELDS t
  let directEvidence := (allEvidence.lookup (matchKey m)).getD []
  let nearbyEvidence := findNearbyFieldEvidence i m ms allEvidence
  let deduped := dedupByField (directEvidence ++ nearbyEvidence)
  let presentFields := deduped.map (fun e => e.field)
  { obl_id := generateObligationId t idx
    obl_type := t
    trigger_op_id := m.pattern_id
    trigger_char_start := m.char_start
    trigger_char_end := m.char_end
    required_fields := required
    present_fields := presentFields
    missing_fields := required.filter (fun f => !presentFields.contains f)
    status := determineStatus required presentFields
    evidence := deduped }

/-- One step of the phase-2 loop: skip non-trigger operators, otherwise bump
the per-type counter and push the new obligation. -/
def obligationStep (ms : List OperatorMatch)
    (allEvidence : List (String × List FieldEvidence))
    (st : (ObligationType → Nat) × List ObligationInstance)
    (p : Nat × OperatorMatch) :
    (ObligationType → Nat) × List ObligationInstance :=
  match OPERATOR_TO_OBLIGATION p.2.op_type with
  | none => st
  | some t =>
    let counters := fun u => if u = t then st.1 t + 1 else st.1 u
    (counters, st.2 ++ [mkObligation t (counters t) p.1 p.2 ms allEvidence])

/-- Per-status totals of a finished obligation list (`statusSummary`). -/
def statusSummaryOf (obls : List ObligationInstance) : StatusSummary :=
  obls.foldl
    (fun s o =>
      match o.status with
      | .SATISFIED => { s with SATISFIED := s.SATISFIED + 1 }
      | .OPEN => { s with OPEN := s.OPEN + 1 }
      | .CONTRADICTED => { s with CONTRADICTED := s.CONTRADICTED + 1 }
      | .AMBIGUOUS => { s with AMBIGUOUS := s.AMBIGUOUS + 1 })
    ⟨0, 0, 0, 0⟩

/-- Embedding of `instantiateObligations` (obligations module, lines
282-357): extract all field evidence, then create one obligation per
trigger operator, binding direct plus nearby evidence, deduplicating per
field, deriving status and a per-type counter id. -/
def instantiateObligations (ms : List OperatorMatch) : ObligationResult :=
  let allEvidence := buildEvidenceMap ms
  let res := ms.enum.foldl (obligationStep ms allEvidence) ((fun _ => 0), [])
  { version := "0.1.0"
    obligation_count := res.2.length
    obligations := res.2
    status_summary := statusSummaryOf res.2 }

/-- Witness for C3 at a concrete input: a CAUSE match (`"because"`) next to
a SCOPE match (`"unless"`). -/
def mBecause : OperatorMatch :=
  { op_type := .CAUSE, pattern_id := "CAUSE_BECAUSE_001", char_start := 0,
    char_end := 7, matched_text := "because",
    captures := [("keyword", "because")], metadata := {} }

/-- Second match of the concrete obligation-engine example. -/
def mUnless : OperatorMatch :=
  { op_type := .SCOPE, pattern_id := "SCOPE_UNLESS_001", char_start := 8,
    char_end := 14, matched_text := "unless",
    captures := [("scope_phrase", "unless")], metadata := {} }

/-- Placeholder obligation used only as the default of list indexing in
closed statements. -/
def dummyObligation : ObligationInstance :=
  { obl_id := "", obl_type := .CAUSE_SUPPORT, trigger_op_id := "",
    trigger_char_start := 0, trigger_char_end := 0, required_fields := [],
    present_fields := [], missing_fields := [], status := .OPEN,
    evidence := [] }

/-- Evidence binding as the claim words it: the trigger's own direct
evidence, followed by the evidence of every *other* match (by list
position) whose span midpoint lies within 500 characters of the trigger's
span midpoint, in match order, deduplicated per field keeping the
first-seen item. -/
def claimEvidence (i : Nat) (m : OperatorMatch) (ms : List OperatorMatch) :
    List FieldEvidence :=
  dedupByField
    (extractFieldsFromMatch m ++
      (ms.enum.filter (fun q => q.1 ≠ i && withinWindow m q.2)).flatMap
        (fun q => extractFieldsFromMatch q.2))

-- ============================================================================
-- Ledger: data model (transaction log module, lines 29-82)
-- ============================================================================

/-- `input_format` union type, `'text/plain' | 'application/pdf'`. -/
inductive InputFormat where
  | textPlain | applicationPdf
deriving DecidableEq, Repr

/-- The string literal of an `InputFormat` value. -/
def inputFormatStr : InputFormat → String
  | .textPlain => "text/plain"
  | .applicationPdf => "application/pdf"

/-- `TransactionInput`. -/
structure TransactionInput where
  input_hash : String
  input_length : Nat
  input_format : InputFormat
deriving DecidableEq, Repr

/-- `TransactionOutputs`. -/
structure TransactionOutputs where
  detection_hash : String
  obligations_hash : String
deriving DecidableEq, Repr

/-- `TransactionEnvironment` (`ddrp_commit` is optional). -/
structure TransactionEnvironment where
  node_version : String
  os : String
  ddrp_version : String
  ddrp_commit : Option String
deriving DecidableEq, Repr

/-- `TransactionChain`. -/
structure TransactionChain where
  previous_transaction_hash : String
  transaction_hash : String
deriving DecidableEq, Repr

/-- `TransactionRecord`. -/
structure TransactionRecord where
  ddrp_version : String
  transaction_version : String
  transaction_id : String
  timestamp_local : String
  timezone : String
  input : TransactionInput
  outputs : TransactionOutputs
  environment : TransactionEnvironment
  chain : TransactionChain
  disclaimer : String
deriving DecidableEq, Repr

/-- `CreateTransactionOptions`.  `transactionId`, `timestampLocal`,
`nodeVersion` and `osName` are produced in the source by the environment
(`crypto.randomBytes`, `new Date()`, `process.version`, `os.platform()`);
these effects are modelled as explicit inputs. -/
structure CreateTransactionOptions where
  inputHash : String
  inputLength : Nat
  inputFormat : InputFormat
  detectionHash : String
  obligationsHash : String
  ddrpVersion : String
  ddrpCommit : Option String
  transactionId : String
  timestampLocal : String
  nodeVersion : String
  osName : String
deriving DecidableEq, Repr

/-- `TRANSACTION_VERSION`. -/
def TRANSACTION_VERSION : String := "0.2.0"

/-- `GENESIS_HASH`: the all-zero 16-hex-character sentinel. -/
def GENESIS_HASH : String := "0000000000000000"

/-- `DISCLAIMER` attached to every record. -/
def DISCLAIMER : String :=
  "This record documents execution continuity only. It does not assert compliance, correctness, or legal validity."

-- ============================================================================
-- Ledger: hashing and canonical serialization (lines 88-112)
-- ============================================================================

/-- Embedding of `sha256`: first 16 hex characters (`substring(0, 16)`) of
the full SHA-256 hex digest, the digest primitive being the parameter
`sha256hex`. -/
def sha256 (sha256hex : String → String) (data : String) : String :=
  String.mk ((sha256hex data).data.take 16)

/-- Escape of one character under `JSON.stringify` string serialization. -/
def jsonEscapeChar (c : Char) : List Char :=
  if c = '"' then ['\\', '"']
  else if c = '\\' then ['\\', '\\']
  else if c = Char.ofNat 8 then ['\\', 'b']
  else if c = Char.ofNat 9 then ['\\', 't']
  else if c = Char.ofNat 10 then ['\\', 'n']
  else if c = Char.ofNat 12 then ['\\', 'f']
  else if c = Char.ofNat 13 then ['\\', 'r']
  else if c.toNat < 32 then
    ['\\', 'u', '0', '0', hexDigit (c.toNat / 16), hexDigit (c.toNat % 16)]
  else [c]

/-- A JSON string literal (`JSON.stringify` of a string value). -/
def jsonStr (s : String) : String :=
  "\"" ++ String.mk (s.data.flatMap jsonEscapeChar) ++ "\""

/-- The canonical serialization hashed by `hashTransactionContent`:
`JSON.stringify` of the record's fields in object-literal order, everything
except `chain.transaction_hash`, with `previous_transaction_hash` flattened
to a top-level key.  `JSON.stringify` omits a key whose value is
`undefined`, hence the `ddrp_commit` branch. -/
def hashContentString (r : TransactionRecord) : String :=
  "\x7b\"ddrp_version\":" ++ jsonStr r.ddrp_version ++
  ",\"transaction_version\":" ++ jsonStr r.transaction_version ++
  ",\"transaction_id\":" ++ jsonStr r.transaction_id ++
  ",\"timestamp_local\":" ++ jsonStr r.timestamp_local ++
  ",\"timezone\":" ++ jsonStr r.timezone ++
  ",\"input\":\x7b\"input_hash\":" ++ jsonStr r.input.input_hash ++
  ",\"input_length\":" ++ Nat.repr r.input.input_length ++
  ",\"input_format\":" ++ jsonStr (inputFormatStr r.input.input_format) ++
  "\x7d,\"outputs\":\x7b\"detection_hash\":" ++ jsonStr r.outputs.detection_hash ++
  ",\"obligations_hash\":" ++ jsonStr r.outputs.obligations_hash ++
  "\x7d,\"environment\":\x7b\"node_version\":" ++ jsonStr r.environment.node_version ++
  ",\"os\":" ++ jsonStr r.environment.os ++
  ",\"ddrp_version\":" ++ jsonStr r.environment.ddrp_version ++
  (match r.environment.ddrp_commit with
   | some commit => ",\"ddrp_commit\":" ++ jsonStr commit
   | none => "") ++
  "\x7d,\"previous_transaction_hash\":" ++ jsonStr r.chain.previous_transaction_hash ++
  "\x7d"

/-- Embedding of `hashTransactionContent`: the truncated SHA-256 of the
canonical serialization of everything except `chain.transaction_hash`. -/
def hashTransactionContent (sha256hex : String → String)
    (r : TransactionRecord) : String :=
  sha256 sha256hex (hashContentString r)

-- ============================================================================
-- Ledger: operations (lines 130-316).  The transaction directory is
-- modelled as the list of its records in ascending storage-key order;
-- `none` is a missing directory.
-- ============================================================================

/-- Embedding of `getLastTransactionHash`: the `transaction_hash` of the
last record in sequence order, or `GENESIS_HASH` for an empty ledger. -/
def getLastTransactionHash (st : List TransactionRecord) : String :=
  match st.getLast? with
  | some r => r.chain.transaction_hash
  | none => GENESIS_HASH

/-- Embedding of `createTransactionRecord`: read the previous hash from the
ledger, assemble the record, and seal it with
`transaction_hash = hashTransactionContent(record)`. -/
def createTransactionRecord (sha256hex : String → String)
    (options : CreateTransactionOptions) (st : List TransactionRecord) :
    TransactionRecord :=
  let previousHash := getLastTransactionHash st
  let record : TransactionRecord :=
    { ddrp_version := options.ddrpVersion
      transaction_version := TRANSACTION_VERSION
      transaction_id := options.transactionId
      timestamp_local := options.timestampLocal
      timezone := "UTC"
      input := { input_hash := options.inputHash,
                 input_length := options.inputLength,
                 input_format := options.inputFormat }
      outputs := { detection_hash := options.detectionHash,
                   obligations_hash := options.obligationsHash }
      environment := { node_version := options.nodeVersion,
                       os := options.osName,
                       ddrp_version := options.ddrpVersion,
                       ddrp_commit := options.ddrpCommit }
      chain := { previous_transaction_hash := previousHash,
                 transaction_hash := "" }
      disclaimer := DISCLAIMER }
  { record with
    chain := { previous_transaction_hash := previousHash,
               transaction_hash := hashTransactionContent sha256hex record } }

/-- Record-sequence abstraction of `writeTransactionRecord`: append the
record as the next element of the verification walk.  This coincides with
the file layout only while the zero-padded file names sort in numeric
order, i.e. for sequence numbers up to 9999; `writeTransactionRecordFile`
below models the storage keys themselves, where the correspondence breaks
at sequence number 10000. -/
def writeTransactionRecord (record : TransactionRecord)
    (st : List TransactionRecord) : List TransactionRecord :=
  st ++ [record]

/-- One append: `createTransactionRecord` followed by
`writeTransactionRecord`, as the callers of the module combine them. -/
def appendTransaction (sha256hex : String → String)
    (options : CreateTransactionOptions) (st : List TransactionRecord) :
    List TransactionRecord :=
  writeTransactionRecord (createTransactionRecord sha256hex options st) st

/-- The two error variants pushed by `verifyTransactionChain`, each naming
the record (by its position in the walk, i.e. its storage file) it was
found at. -/
inductive ChainError where
  | chainBreak (file : Nat) (expected got : String)
  | hashMismatch (file : Nat) (computed recorded : String)
deriving DecidableEq, Repr

/-- The record position an error names. -/
def chainErrorFile : ChainError → Nat
  | .chainBreak f _ _ => f
  | .hashMismatch f _ _ => f

/-- The verification walk of `verifyTransactionChain`: check the chain link
against the expected previous hash, recompute the self-hash, record (not
throw) each mismatch, and continue with `expected := transaction_hash`. -/
def verifyFrom (sha256hex : String → String) :
    String → Nat → List TransactionRecord → List ChainError
  | _, _, [] => []
  | expected, idx, r :: rest =>
    (if r.chain.previous_transaction_hash ≠ expected then
      [ChainError.chainBreak idx expected r.chain.previous_transaction_hash]
     else []) ++
    (if hashTransactionContent sha256hex r ≠ r.chain.transaction_hash then
      [ChainError.hashMismatch idx (hashTransactionContent sha256hex r)
        r.chain.transaction_hash]
     else []) ++
    verifyFrom sha256hex r.chain.transaction_hash (idx + 1) rest

/-- Result record of `verifyTransactionChain`. -/
structure VerifyResult where
  valid : Bool
  errors : List ChainError
  count : Nat
deriving DecidableEq, Repr

/-- Embedding of `verifyTransactionChain`: a missing directory (`none`) and
an empty directory both verify as valid with no errors and count 0;
otherwise walk the records from the `GENESIS_HASH` sentinel. -/
def verifyTransactionChain (sha256hex : String → String) :
    Option (List TransactionRecord) → VerifyResult
  | none => { valid := true, errors := [], count := 0 }
  | some files =>
    if files.isEmpty then { valid := true, errors := [], count := 0 }
    else
      let errors := verifyFrom sha256hex GENESIS_HASH 0 files
      { valid := errors.isEmpty, errors := errors, count := files.length }

/-- An initially empty ledger after the given sequence of appends. -/
def buildLedger (sha256hex : String → String)
    (optsList : List CreateTransactionOptions) : List TransactionRecord :=
  optsList.foldl (fun st options => appendTransaction sha256hex options st) []

/-- Concrete append options for closed ledger checks. -/
def optsW : CreateTransactionOptions :=
  { inputHash := "aabbccdd"
    inputLength := 42
    inputFormat := .textPlain
    detectionHash := "11112222"
    obligationsHash := "33334444"
    ddrpVersion := "0.2.0"
    ddrpCommit := none
    transactionId := "txid-0001"
    timestampLocal := "2026-01-01T00:00:00.000Z"
    nodeVersion := "v20.0.0"
    osName := "linux" }

/-- Cheap stand-in for the digest primitive in closed checks (the theorems
hold for every `sha256hex`): hex-agnostic, keeps the part of the
serialization where the mutated field sits. -/
def shWit : String → String := fun s => String.mk (s.data.drop 16)

/-- Concrete sealed record. -/
def recW : TransactionRecord := createTransactionRecord shWit optsW []

/-- Second sealed record, chained onto `recW`. -/
def recW2 : TransactionRecord := createTransactionRecord shWit optsW [recW]

/-- The second record with a single stored field (`ddrp_version`) mutated. -/
def recW2' : TransactionRecord := { recW2 with ddrp_version := "9.9.9" }

/-- The first sealed record with a single stored field, the `disclaimer`,
mutated. -/
def recWD : TransactionRecord := { recW with disclaimer := "tampered" }

-- ============================================================================
-- Ledger: storage-key layer (lines 134-298).  The transactions directory
-- itself is an association list from file name to the record stored in
-- that file; `readdirSync` lists the keys, every read path sorts them with
-- the comparator-less `Array.prototype.sort` (code-unit lexicographic
-- order), and `writeFileSync` overwrites an existing file in place.
-- ============================================================================

/-- JavaScript `String.prototype.endsWith` on whole strings. -/
def endsWith (s suffix : String) : Bool :=
  if suffix.length ≤ s.length then
    s.data.drop (s.length - suffix.length) == suffix.data
  else false

/-- A transactions directory: file name to stored record, in creation
order (every consumer sorts the names, so the representation order is
immaterial for distinct names). -/
abbrev TransactionsDir := List (String × TransactionRecord)

/-- Record returned for a read of a file name that is not in the
directory; unreachable, since the names walked come from the directory
listing itself. -/
def dummyTxRecord : TransactionRecord :=
  { ddrp_version := "", transaction_version := "", transaction_id := ""
    timestamp_local := "", timezone := ""
    input := { input_hash := "", input_length := 0,
               input_format := .textPlain }
    outputs := { detection_hash := "", obligations_hash := "" }
    environment := { node_version := "", os := "", ddrp_version := "",
                     ddrp_commit := none }
    chain := { previous_transaction_hash := "", transaction_hash := "" }
    disclaimer := "" }

/-- `readdirSync(dir).filter(f => f.endsWith('_transaction.json')).sort()`:
the transaction file names in code-unit lexicographic order. -/
def listTransactionFiles (st : TransactionsDir) : List String :=
  sortLe lexLe
    ((st.map Prod.fst).filter (fun f => endsWith f "_transaction.json"))

/-- Value of `lastFile.match(/^(\d+)_/)` + `parseInt(match[1], 10)` once at
least one digit has been read: keep consuming digits, succeed at an
underscore, fail at anything else or at the end of the name. -/
def parseSeqNumAux : List Char → Nat → Option Nat
  | [], _ => none
  | c :: cs, acc =>
    if c.isDigit then parseSeqNumAux cs (acc * 10 + (c.toNat - 48))
    else if c = '_' then some acc
    else none

/-- `f.match(/^(\d+)_/)` + `parseInt(match[1], 10)`: the numeric value of a
non-empty leading digit run terminated by an underscore, `none` when the
regex does not match. -/
def parseSeqNum (f : String) : Option Nat :=
  match f.data with
  | [] => none
  | c :: cs => if c.isDigit then parseSeqNumAux cs (c.toNat - 48) else none

/-- File-name-level embedding of `getLastTransactionHash`: the stored
`transaction_hash` of the lexicographically last transaction file,
`GENESIS_HASH` when the directory is missing or holds no transaction
files. -/
def getLastTransactionHashFile (st : TransactionsDir) : String :=
  match (listTransactionFiles st).getLast? with
  | none => GENESIS_HASH
  | some f => ((st.lookup f).getD dummyTxRecord).chain.transaction_hash

/-- Embedding of `getNextSequenceNumber`: parse the sequence number out of
the lexicographically last transaction file name and add 1 (falling back
to file count + 1 when the name does not match `/^(\d+)_/`); 1 when the
directory is missing or holds no transaction files. -/
def getNextSequenceNumber (st : TransactionsDir) : Nat :=
  match (listTransactionFiles st).getLast? with
  | none => 1
  | some f =>
    match parseSeqNum f with
    | some n => n + 1
    | none => (listTransactionFiles st).length + 1

/-- The file name `writeTransactionRecord` stores sequence number `seqNum`
under: `${String(seqNum).padStart(4, '0')}_transaction.json`. -/
def transactionFileName (seqNum : Nat) : String :=
  padStart (Nat.repr seqNum) 4 '0' ++ "_transaction.json"

/-- File-name-level embedding of `writeTransactionRecord`: `writeFileSync`
the record under the name of the next sequence number, overwriting any
existing file of that name. -/
def writeTransactionRecordFile (record : TransactionRecord)
    (st : TransactionsDir) : TransactionsDir :=
  assocSet st (transactionFileName (getNextSequenceNumber st)) record

/-- File-name-level embedding of `createTransactionRecord`: the identical
record assembly, with the previous hash read from the record of the
lexicographically last transaction file (`GENESIS_HASH` when there is
none).  Passing that record — or nothing — through the record-sequence
form reuses the assembly verbatim, since `createTransactionRecord` reads
its ledger argument only through `getLastTransactionHash`. -/
def createTransactionRecordFile (sha256hex : String → String)
    (options : CreateTransactionOptions) (st : TransactionsDir) :
    TransactionRecord :=
  createTransactionRecord sha256hex options
    (match (listTransactionFiles st).getLast? with
     | none => []
     | some f => [((st.lookup f).getD dummyTxRecord)])

/-- One file-level append: `createTransactionRecord` followed by
`writeTransactionRecord` on the same directory. -/
def appendTransactionFile (sha256hex : String → String)
    (options : CreateTransactionOptions) (st : TransactionsDir) :
    TransactionsDir :=
  writeTransactionRecordFile
    (createTransactionRecordFile sha256hex options st) st

/-- File-name-level embedding of `verifyTransactionChain`: walk the
records of the transaction files in lexicographic file-name order (the
error positions count files in that walk order); `count` is the number of
transaction files. -/
def verifyTransactionChainFile (sha256hex : String → String) :
    Option TransactionsDir → VerifyResult
  | none => { valid := true, errors := [], count := 0 }
  | some st =>
    let files := listTransactionFiles st
    if files.isEmpty then { valid := true, errors := [], count := 0 }
    else
      let errors := verifyFrom sha256hex GENESIS_HASH 0
        (files.map (fun f => (st.lookup f).getD dummyTxRecord))
      { valid := errors.isEmpty, errors := errors, count := files.length }

/-- The transactions directory as it stands after 9999 appends to an
initially empty directory, with all files but the lexicographically last
one (`9999_transaction.json`) elided: `getNextSequenceNumber` and the sort
position of the next file name depend only on that last name, which is
what the rollover check below exercises. -/
def dirAt9999 : TransactionsDir := [("9999_transaction.json", dummyTxRecord)]

/-- A fixed 64-hex-character string standing in for a full SHA-256 digest
in closed checks. -/
def digest64 : String :=
  "0123456789abcdef0123456789abcdef0123456789abcdef0123456789abcdef"

-- ============================================================================
-- Theorems
-- ============================================================================
-- ============================================================================
-- Order-theoretic facts about the sort comparator
-- ============================================================================

theorem weightListLe_total : ∀ xs ys : List Nat,
    weightListLe xs ys = true ∨ weightListLe ys xs = true := by
  intro xs
  induction xs with
  | nil => intro ys; left; rfl
  | cons x xs ih =>
    intro ys
    cases ys with
    | nil => right; rfl
    | cons y ys =>
      simp only [weightListLe, Bool.or_eq_true, Bool.and_eq_true,
        decide_eq_true_eq]
      rcases Nat.lt_trichotomy x y with h | h | h
      · exact Or.inl (Or.inl h)
      · rcases ih ys with h2 | h2
        · exact Or.inl (Or.inr ⟨h, h2⟩)
        · exact Or.inr (Or.inr ⟨h.symm, h2⟩)
      · exact Or.inr (Or.inl h)

theorem weightListLe_trans : ∀ xs ys zs : List Nat,
    weightListLe xs ys = true → weightListLe ys zs = true →
    weightListLe xs zs = true := by
  intro xs
  induction xs with
  | nil => intro ys zs _ _; rfl
  | cons x xs ih =>
    intro ys zs h1 h2
    cases ys with
    | nil => simp [weightListLe] at h1
    | cons y ys =>
      cases zs with
      | nil => simp [weightListLe] at h2
      | cons z zs =>
        simp only [weightListLe, Bool.or_eq_true, Bool.and_eq_true,
          decide_eq_true_eq] at h1 h2 ⊢
        rcases h1 with h1 | ⟨rfl, h1⟩
        · rcases h2 with h2 | ⟨rfl, _⟩
          · exact Or.inl (Nat.lt_trans h1 h2)
          · exact Or.inl h1
        · rcases h2 with h2 | ⟨rfl, h2⟩
          · exact Or.inl h2
          · exact Or.inr ⟨rfl, ih ys zs h1 h2⟩

theorem localeLe_total (a b : String) :
    localeLe a b = true ∨ localeLe b a = true :=
  weightListLe_total _ _

theorem localeLe_trans {a b c : String} (h1 : localeLe a b = true)
    (h2 : localeLe b c = true) : localeLe a c = true :=
  weightListLe_trans _ _ _ h1 h2

theorem matchLe_total (a b : OperatorMatch) : (matchLe a b || matchLe b a) = true := by
  simp only [matchLe, Bool.or_eq_true, Bool.and_eq_true, decide_eq_true_eq]
  rcases Nat.lt_trichotomy a.char_start b.char_start with h | h | h
  · exact Or.inl (Or.inl h)
  · rcases localeLe_total a.pattern_id b.pattern_id with h2 | h2
    · exact Or.inl (Or.inr ⟨h, h2⟩)
    · exact Or.inr (Or.inr ⟨h.symm, h2⟩)
  · exact Or.inr (Or.inl h)

theorem matchLe_trans (a b c : OperatorMatch) (h1 : matchLe a b = true)
    (h2 : matchLe b c = true) : matchLe a c = true := by
  simp only [matchLe, Bool.or_eq_true, Bool.and_eq_true,
    decide_eq_true_eq] at h1 h2 ⊢
  rcases h1 with h1 | ⟨he1, hl1⟩
  · rcases h2 with h2 | ⟨he2, _⟩
    · exact Or.inl (Nat.lt_trans h1 h2)
    · exact Or.inl (he2 ▸ h1)
  · rcases h2 with h2 | ⟨he2, hl2⟩
    · exact Or.inl (he1 ▸ h2)
    · exact Or.inr ⟨he1.trans he2, localeLe_trans hl1 hl2⟩

/-- On the 49 registry ids, root-locale collation order implies plain
code-point lexicographic order, with a single exception: `UNIV_NO_001`
collates before `UNIV_NONE_001` (the underscore has a lower primary weight
than a letter) while code-point order puts `UNIV_NONE_001` first
(`N` < `_`).  Checked exhaustively over all 49 × 49 id pairs. -/
theorem localeLe_agrees_with_lexLe_on_v01_ids :
    (v01PatternIds.all fun a => v01PatternIds.all fun b =>
      !(localeLe a b) || lexLe a b ||
        (a = "UNIV_NO_001" && b = "UNIV_NONE_001")) = true := by
  decide

theorem localeLe_imp_lexLe_on_v01_ids {a b : String}
    (ha : a ∈ v01PatternIds) (hb : b ∈ v01PatternIds)
    (h : localeLe a b = true) :
    lexLe a b = true ∨ (a = "UNIV_NO_001" ∧ b = "UNIV_NONE_001") := by
  have hall := localeLe_agrees_with_lexLe_on_v01_ids
  rw [List.all_eq_true] at hall
  have hx := hall a ha
  rw [List.all_eq_true] at hx
  have hy := hx b hb
  revert hy
  simp only [Bool.or_eq_true, Bool.and_eq_true, Bool.not_eq_true',
    decide_eq_true_eq]
  intro hy
  rcases hy with (hne | hlex) | hpair
  · rw [h] at hne; cases hne
  · exact Or.inl hlex
  · exact Or.inr hpair

theorem mem_insertLe {α : Type} {le : α → α → Bool} {x a : α} {l : List α} :
    a ∈ insertLe le x l ↔ a = x ∨ a ∈ l := by
  induction l with
  | nil => simp [insertLe]
  | cons y ys ih =>
    simp only [insertLe]
    split
    · simp
    · simp only [List.mem_cons, ih]
      tauto

theorem pairwise_insertLe {α : Type} {le : α → α → Bool}
    (total : ∀ a b, (le a b || le b a) = true)
    (trans : ∀ a b c, le a b = true → le b c = true → le a c = true)
    (x : α) {l : List α} (h : l.Pairwise (fun a b => le a b = true)) :
    (insertLe le x l).Pairwise (fun a b => le a b = true) := by
  induction l with
  | nil => simp [insertLe]
  | cons y ys ih =>
    simp only [insertLe]
    rcases List.pairwise_cons.mp h with ⟨hy, hys⟩
    split
    · rename_i hxy
      refine List.pairwise_cons.mpr ⟨?_, h⟩
      intro z hz
      rcases List.mem_cons.mp hz with rfl | hz
      · exact hxy
      · exact trans x y z hxy (hy z hz)
    · rename_i hxy
      have hyx : le y x = true := by
        have := total x y
        simp only [Bool.or_eq_true] at this
        rcases this with h1 | h1
        · exact absurd h1 hxy
        · exact h1
      refine List.pairwise_cons.mpr ⟨?_, ih hys⟩
      intro z hz
      rcases mem_insertLe.mp hz with rfl | hz
      · exact hyx
      · exact hy z hz

theorem pairwise_sortLe {α : Type} {le : α → α → Bool}
    (total : ∀ a b, (le a b || le b a) = true)
    (trans : ∀ a b c, le a b = true → le b c = true → le a c = true)
    (l : List α) : (sortLe le l).Pairwise (fun a b => le a b = true) := by
  induction l with
  | nil => simp [sortLe]
  | cons x xs ih => exact pairwise_insertLe total trans x ih

theorem mem_sortLe {α : Type} {le : α → α → Bool} {a : α} {l : List α} :
    a ∈ sortLe le l ↔ a ∈ l := by
  induction l with
  | nil => simp [sortLe]
  | cons x xs ih => simp [sortLe, mem_insertLe, ih]

theorem mem_collectMatches_pattern_id {cfg : OperatorDetectorConfig}
    {text : String} {m : OperatorMatch} (h : m ∈ collectMatches cfg text) :
    m.pattern_id ∈ cfg.patterns.map (fun p => p.id) := by
  simp only [collectMatches, List.mem_flatMap, List.mem_map] at h
  obtain ⟨p, hp, raw, _, rfl⟩ := h
  exact List.mem_map.mpr ⟨p, hp, rfl⟩

theorem mem_detect_matches_pattern_id {cfg : OperatorDetectorConfig}
    {text : String} {m : OperatorMatch} (h : m ∈ (detect cfg text).matches) :
    m.pattern_id ∈ cfg.patterns.map (fun p => p.id) := by
  simp only [detect, mem_sortLe] at h
  exact mem_collectMatches_pattern_id h

/-- C1.  For every registry carrying the v0.1 pattern ids and every text, the
match list returned by `detect` is sorted by `char_start` ascending, and
matches with equal `char_start` appear in lexicographically non-decreasing
`pattern_id` order.  The sort comparator uses `localeCompare`, whose
root-locale order deviates from code-point order on exactly one id pair,
`UNIV_NO_001` / `UNIV_NONE_001` (see
`localeLe_agrees_with_lexLe_on_v01_ids`); those two patterns can never match
at the same position (`\b(no)\b` requires a non-word character right after
`no`, while `none` continues with `n`), which the hypothesis `hnd` records,
since the pattern rules themselves are modelled abstractly. -/
theorem detect_matches_sorted (cfg : OperatorDetectorConfig)
    (hids : cfg.patterns.map (fun p => p.id) = v01PatternIds)
    (text : String)
    (hnd : ∀ m1 ∈ (detect cfg text).matches, ∀ m2 ∈ (detect cfg text).matches,
      m1.char_start = m2.char_start →
      ¬(m1.pattern_id = "UNIV_NO_001" ∧ m2.pattern_id = "UNIV_NONE_001")) :
    (detect cfg text).matches.Pairwise matchOrdered := by
  have hsorted : (detect cfg text).matches.Pairwise (fun a b => matchLe a b = true) := by
    simpa [detect] using
      pairwise_sortLe matchLe_total matchLe_trans (collectMatches cfg text)
  refine List.Pairwise.imp_of_mem ?_ hsorted
  intro m1 m2 h1 h2 hle
  simp only [matchLe, Bool.or_eq_true, Bool.and_eq_true,
    decide_eq_true_eq] at hle
  rcases hle with hlt | ⟨heq, hloc⟩
  · exact Or.inl hlt
  · refine Or.inr ⟨heq, ?_⟩
    have hid1 : m1.pattern_id ∈ v01PatternIds := by
      rw [← hids]; exact mem_detect_matches_pattern_id h1
    have hid2 : m2.pattern_id ∈ v01PatternIds := by
      rw [← hids]; exact mem_detect_matches_pattern_id h2
    rcases localeLe_imp_lexLe_on_v01_ids hid1 hid2 hloc with hlex | hpair
    · exact hlex
    · exact absurd hpair (hnd m1 h1 m2 h2 heq)

-- ============================================================================
-- Claim C7: detection is referentially transparent
-- ============================================================================

/-- C7.  Detection is referentially transparent: with the pattern rules
modelled as pure `exec` functions (JS regex execution is deterministic in
the pattern source, subject text and `lastIndex` cursor), the only mutable
state touched by `detect` is the `lastIndex` cursor of each `g`-regex, which
`detect` resets to 0 before scanning.  Hence two calls on the same text and
registry — whatever cursor state each call starts from, including the state
left behind by the other call — return structurally identical results: same
matches in the same order with the same fields, same `pattern_count`, same
`input_hash`, and identical final cursor state. -/
theorem detect_deterministic (cfg : OperatorDetectorConfig) (text : String)
    (cursors1 cursors2 : List Nat) :
    detectWithState cfg cursors1 text = detectWithState cfg cursors2 text := rfl

/-- Witness for C1: on a concrete registry instance carrying the v0.1 ids
and a concrete text producing three matches (two of them tied on
`char_start`), the hypotheses of `detect_matches_sorted` hold and the
detection output is ordered as claimed. -/
theorem detect_matches_sorted_witness :
    (detect cfgCheck "for purposes of this document, Widget means a gadget.").matches.Pairwise matchOrdered :=
  detect_matches_sorted cfgCheck (by rfl) "for purposes of this document, Widget means a gadget." (by decide)

-- ============================================================================
-- Generic facts about the phase-2 fold of `instantiateObligations`
-- ============================================================================

theorem obligations_fold_mem {ms : List OperatorMatch}
    {allEv : List (String × List FieldEvidence)} :
    ∀ (l : List (Nat × OperatorMatch)) (c0 : ObligationType → Nat)
      (acc : List ObligationInstance) {obl : ObligationInstance},
      obl ∈ (l.foldl (obligationStep ms allEv) (c0, acc)).2 →
      obl ∈ acc ∨ ∃ p ∈ l, ∃ t idx,
        OPERATOR_TO_OBLIGATION p.2.op_type = some t ∧
        obl = mkObligation t idx p.1 p.2 ms allEv := by
  intro l
  induction l with
  | nil => intro c0 acc obl h; exact Or.inl h
  | cons p ps ih =>
    intro c0 acc obl h
    simp only [List.foldl_cons] at h
    rcases hstep : OPERATOR_TO_OBLIGATION p.2.op_type with _ | t
    · rw [obligationStep, hstep] at h
      rcases ih _ _ h with hacc | ⟨q, hq, t, idx, hqt, heq⟩
      · exact Or.inl hacc
      · exact Or.inr ⟨q, List.mem_cons_of_mem _ hq, t, idx, hqt, heq⟩
    · rw [obligationStep, hstep] at h
      rcases ih _ _ h with hacc | ⟨q, hq, t', idx, hqt, heq⟩
      · rcases List.mem_append.mp hacc with hacc | hnew
        · exact Or.inl hacc
        · exact Or.inr ⟨p, List.mem_cons_self _ _, t, _, hstep,
            List.mem_singleton.mp hnew⟩
      · exact Or.inr ⟨q, List.mem_cons_of_mem _ hq, t', idx, hqt, heq⟩

/-- Every obligation in the output of `instantiateObligations` is the
`mkObligation` of some trigger match. -/
theorem mem_instantiateObligations {ms : List OperatorMatch}
    {obl : ObligationInstance}
    (h : obl ∈ (instantiateObligations ms).obligations) :
    ∃ p ∈ ms.enum, ∃ t idx,
      OPERATOR_TO_OBLIGATION p.2.op_type = some t ∧
      obl = mkObligation t idx p.1 p.2 ms (buildEvidenceMap ms) := by
  have h' := @obligations_fold_mem ms (buildEvidenceMap ms)
    ms.enum (fun _ => 0) [] obl h
  rcases h' with hacc | hex
  · cases hacc
  · exact hex

theorem fieldList_contains_iff {l : List FieldName} {f : FieldName} :
    l.contains f = true ↔ f ∈ l := by
  simp [List.contains_iff_exists_mem_beq, beq_iff_eq]

theorem status_satisfied_iff (required present : List FieldName) :
    determineStatus required present = ObligationStatus.SATISFIED ↔
      required.filter (fun f => !present.contains f) = [] := by
  rw [determineStatus]
  by_cases h : required.all (fun f => present.contains f) = true
  · rw [if_pos h]
    simp only [List.all_eq_true] at h
    simp only [List.filter_eq_nil_iff, true_iff]
    intro f hf
    have hm : f ∈ present := fieldList_contains_iff.mp (h f hf)
    simp [hm]
  · rw [if_neg h]
    simp only [List.all_eq_true] at h
    push_neg at h
    obtain ⟨f, hf, hc⟩ := h
    simp only [Bool.not_eq_true] at hc
    have hm : f ∉ present := by
      intro hmem
      rw [fieldList_contains_iff.mpr hmem] at hc
      cases hc
    constructor
    · intro hcon; cases hcon
    · intro hfil
      rw [List.filter_eq_nil_iff] at hfil
      exact absurd (by simp [hm] : (!present.contains f) = true)
        (hfil f hf)

theorem status_not_reserved (required present : List FieldName) :
    determineStatus required present ≠ ObligationStatus.CONTRADICTED ∧
    determineStatus required present ≠ ObligationStatus.AMBIGUOUS := by
  rw [determineStatus]
  split
  · exact ⟨by simp, by simp⟩
  · exact ⟨by simp, by simp⟩

/-- C3.  For every `ObligationInstance` produced by
`instantiateObligations`, `status` is `SATISFIED` iff `missing_fields` is
empty and otherwise `OPEN`; the reserved statuses `CONTRADICTED` and
`AMBIGUOUS` are never assigned. -/
theorem instantiateObligations_status_correct (ms : List OperatorMatch) :
    ∀ obl ∈ (instantiateObligations ms).obligations,
      (obl.status = ObligationStatus.SATISFIED ↔ obl.missing_fields = []) ∧
      (obl.status = ObligationStatus.SATISFIED ∨
        obl.status = ObligationStatus.OPEN) ∧
      obl.status ≠ ObligationStatus.CONTRADICTED ∧
      obl.status ≠ ObligationStatus.AMBIGUOUS := by
  intro obl h
  obtain ⟨p, _, t, idx, _, rfl⟩ := mem_instantiateObligations h
  refine ⟨status_satisfied_iff _ _, ?_, status_not_reserved _ _⟩
  show determineStatus _ _ = _ ∨ determineStatus _ _ = _
  rw [determineStatus]
  split
  · exact Or.inl rfl
  · exact Or.inr rfl

theorem instantiateObligations_status_correct_witness :
    (((instantiateObligations [mBecause, mUnless]).obligations.getD 0
        dummyObligation).status = ObligationStatus.SATISFIED ↔
      ((instantiateObligations [mBecause, mUnless]).obligations.getD 0
        dummyObligation).missing_fields = []) ∧
    (((instantiateObligations [mBecause, mUnless]).obligations.getD 0
        dummyObligation).status = ObligationStatus.SATISFIED ∨
      ((instantiateObligations [mBecause, mUnless]).obligations.getD 0
        dummyObligation).status = ObligationStatus.OPEN) ∧
    ((instantiateObligations [mBecause, mUnless]).obligations.getD 0
        dummyObligation).status ≠ ObligationStatus.CONTRADICTED ∧
    ((instantiateObligations [mBecause, mUnless]).obligations.getD 0
        dummyObligation).status ≠ ObligationStatus.AMBIGUOUS :=
  instantiateObligations_status_correct [mBecause, mUnless] _ (by decide)

/-- C2 (amended).  For every `ObligationInstance` produced by
`instantiateObligations`: every required field is either present or
missing, `missing_fields` is exactly the required fields without evidence
(hence a subset of `required_fields` disjoint from `present_fields`) —
but `present_fields` lists *all* fields with surviving evidence, including
fields outside `required_fields`, so `present ∪ missing` can strictly
contain `required` (see the counterexample
`instantiateObligations_field_completeness_cex`). -/
theorem instantiateObligations_field_partition (ms : List OperatorMatch) :
    ∀ obl ∈ (instantiateObligations ms).obligations,
      (∀ f ∈ obl.required_fields,
        f ∈ obl.present_fields ∨ f ∈ obl.missing_fields) ∧
      (∀ f ∈ obl.missing_fields,
        f ∈ obl.required_fields ∧ f ∉ obl.present_fields) ∧
      (∀ f : FieldName, ¬(f ∈ obl.present_fields ∧ f ∈ obl.missing_fields)) := by
  intro obl h
  obtain ⟨p, _, t, idx, _, rfl⟩ := mem_instantiateObligations h
  refine ⟨?_, ?_, ?_⟩
  · intro f hf
    by_cases hm :
      f ∈ (mkObligation t idx p.1 p.2 ms (buildEvidenceMap ms)).present_fields
    · exact Or.inl hm
    · refine Or.inr (List.mem_filter.mpr ⟨hf, ?_⟩)
      have hc : (mkObligation t idx p.1 p.2 ms
          (buildEvidenceMap ms)).present_fields.contains f = false := by
        cases hcc : (mkObligation t idx p.1 p.2 ms
            (buildEvidenceMap ms)).present_fields.contains f
        · rfl
        · exact absurd (fieldList_contains_iff.mp hcc) hm
      show (!(mkObligation t idx p.1 p.2 ms
          (buildEvidenceMap ms)).present_fields.contains f) = true
      rw [hc]; rfl
  · intro f hf
    rcases List.mem_filter.mp hf with ⟨hreq, hnc⟩
    refine ⟨hreq, ?_⟩
    intro hmem
    have h1 : (mkObligation t idx p.1 p.2 ms
        (buildEvidenceMap ms)).present_fields.contains f = true :=
      fieldList_contains_iff.mpr hmem
    have h2 : (!(mkObligation t idx p.1 p.2 ms
        (buildEvidenceMap ms)).present_fields.contains f) = true := hnc
    rw [h1] at h2
    cases h2
  · intro f ⟨hmem, hf⟩
    rcases List.mem_filter.mp hf with ⟨_, hnc⟩
    have h1 : (mkObligation t idx p.1 p.2 ms
        (buildEvidenceMap ms)).present_fields.contains f = true :=
      fieldList_contains_iff.mpr hmem
    have h2 : (!(mkObligation t idx p.1 p.2 ms
        (buildEvidenceMap ms)).present_fields.contains f) = true := hnc
    rw [h1] at h2
    cases h2

/-- Counterexample for C2 as frozen: on a CAUSE trigger (`"because"`) with
a nearby SCOPE match (`"unless"`), the obligation's `present_fields` is
`[why, scope]` while `required_fields` is `[why]`, so
`present ∪ missing ≠ required`. -/
theorem instantiateObligations_field_completeness_cex :
    ¬(∀ obl ∈ (instantiateObligations [mBecause, mUnless]).obligations,
        ∀ f : FieldName,
          (f ∈ obl.present_fields ∨ f ∈ obl.missing_fields) ↔
            f ∈ obl.required_fields) := by
  decide

theorem instantiateObligations_field_partition_witness :
    (∀ f ∈ ((instantiateObligations [mBecause, mUnless]).obligations.getD 0
        dummyObligation).required_fields,
      f ∈ ((instantiateObligations [mBecause, mUnless]).obligations.getD 0
        dummyObligation).present_fields ∨
      f ∈ ((instantiateObligations [mBecause, mUnless]).obligations.getD 0
        dummyObligation).missing_fields) ∧
    (∀ f ∈ ((instantiateObligations [mBecause, mUnless]).obligations.getD 0
        dummyObligation).missing_fields,
      f ∈ ((instantiateObligations [mBecause, mUnless]).obligations.getD 0
        dummyObligation).required_fields ∧
      f ∉ ((instantiateObligations [mBecause, mUnless]).obligations.getD 0
        dummyObligation).present_fields) ∧
    (∀ f : FieldName,
      ¬(f ∈ ((instantiateObligations [mBecause, mUnless]).obligations.getD 0
          dummyObligation).present_fields ∧
        f ∈ ((instantiateObligations [mBecause, mUnless]).obligations.getD 0
          dummyObligation).missing_fields)) :=
  instantiateObligations_field_partition [mBecause, mUnless] _ (by decide)

-- ============================================================================
-- Claim C4: proximity-window evidence binding
-- ============================================================================

theorem listContains_iff {α : Type} [BEq α] [LawfulBEq α] {l : List α}
    {a : α} : l.contains a = true ↔ a ∈ l := by
  simp [List.contains_iff_exists_mem_beq, beq_iff_eq]

theorem flatMap_congr_mem {α β : Type} {l : List α} {f g : α → List β}
    (h : ∀ a ∈ l, f a = g a) : l.flatMap f = l.flatMap g := by
  induction l with
  | nil => rfl
  | cons x xs ih =>
    simp only [List.flatMap_cons]
    rw [h x (List.mem_cons_self _ _), ih (fun a ha => h a (List.mem_cons_of_mem _ ha))]

theorem assocSet_fresh {α : Type} {l : List (String × α)} {k : String}
    {v : α} (h : k ∉ l.map Prod.fst) : assocSet l k v = l ++ [(k, v)] := by
  rw [assocSet]
  rw [if_neg]
  intro hc
  exact h (listContains_iff.mp hc)

theorem buildEvidenceMap_eq_map {ms : List OperatorMatch}
    (hnd : (ms.map matchKey).Nodup) :
    buildEvidenceMap ms =
      ms.map (fun m => (matchKey m, extractFieldsFromMatch m)) := by
  suffices haux : ∀ (l : List OperatorMatch)
      (acc : List (String × List FieldEvidence)),
      (∀ m ∈ l, matchKey m ∉ acc.map Prod.fst) → (l.map matchKey).Nodup →
      l.foldl (fun a m => assocSet a (matchKey m) (extractFieldsFromMatch m)) acc =
        acc ++ l.map (fun m => (matchKey m, extractFieldsFromMatch m)) by
    simpa using haux ms [] (by simp) hnd
  intro l
  induction l with
  | nil => intro acc _ _; simp
  | cons m lrest ih =>
    intro acc hfresh hndl
    simp only [List.foldl_cons]
    rw [assocSet_fresh (hfresh m (List.mem_cons_self _ _))]
    rw [List.map_cons, List.nodup_cons] at hndl
    rw [ih (acc ++ [(matchKey m, extractFieldsFromMatch m)]) ?_ hndl.2]
    · simp
    · intro m' hm'
      simp only [List.map_append, List.mem_append, List.map_cons]
      rintro (hin | hin)
      · exact hfresh m' (List.mem_cons_of_mem _ hm') hin
      · simp only [List.map_nil, List.mem_singleton] at hin
        exact hndl.1 (hin ▸ List.mem_map_of_mem matchKey hm')

theorem lookup_matchKey_map {ms : List OperatorMatch} {m : OperatorMatch}
    (hnd : (ms.map matchKey).Nodup) (hm : m ∈ ms) :
    (ms.map (fun m' => (matchKey m', extractFieldsFromMatch m'))).lookup
        (matchKey m) = some (extractFieldsFromMatch m) := by
  induction ms with
  | nil => cases hm
  | cons m' rest ih =>
    rw [List.map_cons, List.nodup_cons] at hnd
    rcases List.mem_cons.mp hm with rfl | hm
    · simp [List.lookup]
    · have hne : matchKey m ≠ matchKey m' := by
        intro he
        exact hnd.1 (he ▸ List.mem_map_of_mem matchKey hm)
      simp only [List.map_cons, List.lookup]
      rw [show (matchKey m == matchKey m') = false from by simpa using hne]
      exact ih hnd.2 hm

theorem buildEvidenceMap_lookup {ms : List OperatorMatch}
    {m : OperatorMatch} (hnd : (ms.map matchKey).Nodup) (hm : m ∈ ms) :
    (buildEvidenceMap ms).lookup (matchKey m) =
      some (extractFieldsFromMatch m) := by
  rw [buildEvidenceMap_eq_map hnd]
  exact lookup_matchKey_map hnd hm

theorem mem_enum_snd_mem {α : Type} {l : List α} {p : Nat × α}
    (h : p ∈ l.enum) : p.2 ∈ l :=
  List.getElem?_mem (List.mem_enum_iff_getElem?.mp h)

theorem obligations_fold_evidence {ms : List OperatorMatch}
    {allEv : List (String × List FieldEvidence)} :
    ∀ (l : List (Nat × OperatorMatch)) (c : ObligationType → Nat)
      (acc : List ObligationInstance),
      ((l.foldl (obligationStep ms allEv) (c, acc)).2).map (fun o => o.evidence) =
        acc.map (fun o => o.evidence) ++
          (l.filter (fun q => (OPERATOR_TO_OBLIGATION q.2.op_type).isSome)).map
            (fun q => dedupByField
              (((allEv.lookup (matchKey q.2)).getD []) ++
                findNearbyFieldEvidence q.1 q.2 ms allEv)) := by
  intro l
  induction l with
  | nil => intro c acc; simp
  | cons p ps ih =>
    intro c acc
    simp only [List.foldl_cons]
    rcases hstep : OPERATOR_TO_OBLIGATION p.2.op_type with _ | t
    · rw [obligationStep, hstep, ih, List.filter_cons_of_neg (by simp [hstep])]
    · rw [obligationStep, hstep, ih, List.filter_cons_of_pos (by simp [hstep])]
      simp [mkObligation]

/-- C4.  When the match list has pairwise distinct `matchKey`s (which holds
for detector output: a `g`-regex never yields two matches of one pattern at
the same position), every obligation's bound evidence is exactly its
trigger's direct evidence plus the evidence of every other match whose span
midpoint lies within 500 characters of the trigger's midpoint, deduplicated
per field keeping the first-seen item — so direct evidence wins over nearby
evidence, and among nearby evidence the earliest match in match order wins. -/
theorem instantiateObligations_evidence_binding (ms : List OperatorMatch)
    (hnd : (ms.map matchKey).Nodup) :
    (instantiateObligations ms).obligations.map (fun o => o.evidence) =
      (ms.enum.filter
          (fun q => (OPERATOR_TO_OBLIGATION q.2.op_type).isSome)).map
        (fun q => claimEvidence q.1 q.2 ms) := by
  have hfold := @obligations_fold_evidence ms (buildEvidenceMap ms)
    ms.enum (fun _ => 0) []
  rw [show (instantiateObligations ms).obligations =
      (ms.enum.foldl (obligationStep ms (buildEvidenceMap ms))
        ((fun _ => 0), [])).2 from rfl, hfold]
  simp only [List.map_nil, List.nil_append]
  apply List.map_congr_left
  intro q hq
  have hq2 : q.2 ∈ ms := mem_enum_snd_mem (List.mem_filter.mp hq).1
  rw [claimEvidence, buildEvidenceMap_lookup hnd hq2]
  simp only [Option.getD_some]
  congr 1
  congr 1
  rw [findNearbyFieldEvidence]
  apply flatMap_congr_mem
  intro r hr
  have hr2 : r.2 ∈ ms := mem_enum_snd_mem (List.mem_filter.mp hr).1
  rw [buildEvidenceMap_lookup hnd hr2]
  rfl

theorem instantiateObligations_evidence_binding_witness :
    (instantiateObligations [mBecause, mUnless]).obligations.map
        (fun o => o.evidence) =
      ([mBecause, mUnless].enum.filter
          (fun q => (OPERATOR_TO_OBLIGATION q.2.op_type).isSome)).map
        (fun q => claimEvidence q.1 q.2 [mBecause, mUnless]) :=
  instantiateObligations_evidence_binding [mBecause, mUnless] (by decide)

-- ============================================================================
-- Claim C8: deterministic per-type obligation ids
-- ============================================================================

theorem obligationStep_none {ms : List OperatorMatch}
    {allEv : List (String × List FieldEvidence)}
    {c : ObligationType → Nat} {acc : List ObligationInstance}
    {p : Nat × OperatorMatch}
    (h : OPERATOR_TO_OBLIGATION p.2.op_type = none) :
    obligationStep ms allEv (c, acc) p = (c, acc) := by
  rw [obligationStep, h]

theorem obligationStep_some {ms : List OperatorMatch}
    {allEv : List (String × List FieldEvidence)}
    {c : ObligationType → Nat} {acc : List ObligationInstance}
    {p : Nat × OperatorMatch} {t : ObligationType}
    (h : OPERATOR_TO_OBLIGATION p.2.op_type = some t) :
    obligationStep ms allEv (c, acc) p =
      ((fun u => if u = t then c t + 1 else c u),
        acc ++ [mkObligation t (c t + 1) p.1 p.2 ms allEv]) := by
  rw [obligationStep, h]
  show ((fun u => if u = t then c t + 1 else c u),
      acc ++ [mkObligation t (if t = t then c t + 1 else c t) p.1 p.2 ms allEv]) = _
  rw [if_pos rfl]

theorem obligations_fold_ids {ms : List OperatorMatch}
    {allEv : List (String × List FieldEvidence)} :
    ∀ (l : List (Nat × OperatorMatch)) (c : ObligationType → Nat)
      (acc : List ObligationInstance),
      (∀ t, c t = (acc.filter (fun o => o.obl_type = t)).length) →
      (∀ pre o post, acc = pre ++ o :: post →
        o.obl_id = generateObligationId o.obl_type
          ((pre.filter (fun q => q.obl_type = o.obl_type)).length + 1)) →
      ∀ pre o post,
        (l.foldl (obligationStep ms allEv) (c, acc)).2 = pre ++ o :: post →
        o.obl_id = generateObligationId o.obl_type
          ((pre.filter (fun q => q.obl_type = o.obl_type)).length + 1) := by
  intro l
  induction l with
  | nil => intro c acc _ hQ; exact hQ
  | cons p ps ih =>
    intro c acc hc hQ
    simp only [List.foldl_cons]
    rcases hstep : OPERATOR_TO_OBLIGATION p.2.op_type with _ | t
    · rw [obligationStep_none hstep]
      exact ih c acc hc hQ
    · rw [obligationStep_some hstep]
      apply ih
      · intro u
        show (if u = t then c t + 1 else c u) = _
        by_cases hu : u = t
        · subst hu
          rw [if_pos rfl, hc u, List.filter_append, List.length_append]
          simp [mkObligation]
        · rw [if_neg hu, hc u, List.filter_append, List.length_append]
          have htu : ¬t = u := fun h => hu h.symm
          have hz : (List.filter (fun o => o.obl_type = u)
              [mkObligation t (c t + 1) p.1 p.2 ms allEv]).length = 0 := by
            simp only [List.filter_cons, List.filter_nil]
            rw [if_neg (by simpa [mkObligation] using htu)]
            rfl
          omega
      · intro pre o post heq
        rcases List.append_eq_append_iff.mp heq with ⟨a', hpre, hsing⟩ |
          ⟨c', hacc, hsplit⟩
        · cases a' with
          | nil =>
            simp only [List.append_nil] at hpre
            simp only [List.nil_append] at hsing
            obtain ⟨ho, _⟩ := List.cons_eq_cons.mp hsing
            subst ho
            rw [hpre]
            show generateObligationId t (c t + 1) =
              generateObligationId t
                ((acc.filter (fun q => q.obl_type = t)).length + 1)
            rw [hc t]
          | cons x xs =>
            exfalso
            have hlen := congrArg List.length hsing
            simp at hlen
        · cases c' with
          | nil =>
            simp only [List.append_nil] at hacc
            simp only [List.nil_append] at hsplit
            obtain ⟨ho, _⟩ := List.cons_eq_cons.mp hsplit.symm
            subst ho
            rw [← hacc]
            show generateObligationId t (c t + 1) =
              generateObligationId t
                ((acc.filter (fun q => q.obl_type = t)).length + 1)
            rw [hc t]
          | cons o' c'' =>
            obtain ⟨ho, _⟩ := List.cons_eq_cons.mp hsplit
            subst ho
            exact hQ pre o c'' hacc

/-- C8 (amended).  Obligation ids are
`OBL_{type}_{per-type counter padded to at least 3 digits}`, with the
per-type counter assigned in match-processing order: the obligation at any
position in the output carries the id determined by its type and by how
many obligations of that same type precede it, so the i-th obligation of a
given type always receives the same id. -/
theorem instantiateObligations_ids (ms : List OperatorMatch) :
    ∀ pre o post,
      (instantiateObligations ms).obligations = pre ++ o :: post →
      o.obl_id = generateObligationId o.obl_type
        ((pre.filter (fun q => q.obl_type = o.obl_type)).length + 1) := by
  have hQ : ∀ pre (o : ObligationInstance) post,
      ([] : List ObligationInstance) = pre ++ o :: post →
      o.obl_id = generateObligationId o.obl_type
        ((pre.filter (fun q => q.obl_type = o.obl_type)).length + 1) := by
    intro pre o post h
    exact absurd h.symm (List.append_ne_nil_of_right_ne_nil _ (by simp))
  exact obligations_fold_ids ms.enum (fun _ => 0) [] (fun _ => rfl) hQ

/-- Counterexample for C8 as frozen: the id of the first CAUSE_SUPPORT
obligation is `OBL_CAUSE_SUPPORT_001`, not the claimed `{type}_{counter}`
format `CAUSE_SUPPORT_001`. -/
theorem instantiateObligations_id_format_cex :
    (instantiateObligations [mBecause]).obligations.map (fun o => o.obl_id) ≠
      [obligationTypeName ObligationType.CAUSE_SUPPORT ++ "_" ++
        padStart (Nat.repr 1) 3 '0'] ∧
    (instantiateObligations [mBecause]).obligations.map (fun o => o.obl_id) =
      ["OBL_" ++ obligationTypeName ObligationType.CAUSE_SUPPORT ++ "_" ++
        padStart (Nat.repr 1) 3 '0'] := by
  decide

theorem instantiateObligations_ids_witness :
    ((instantiateObligations [mBecause, mUnless]).obligations.getD 1
        dummyObligation).obl_id =
      generateObligationId
        ((instantiateObligations [mBecause, mUnless]).obligations.getD 1
          dummyObligation).obl_type
        ((([(instantiateObligations [mBecause, mUnless]).obligations.getD 0
              dummyObligation].filter
            (fun q => q.obl_type =
              ((instantiateObligations [mBecause, mUnless]).obligations.getD 1
                dummyObligation).obl_type)).length) + 1) :=
  instantiateObligations_ids [mBecause, mUnless]
    [(instantiateObligations [mBecause, mUnless]).obligations.getD 0
      dummyObligation]
    ((instantiateObligations [mBecause, mUnless]).obligations.getD 1
      dummyObligation)
    []
    (by decide)

-- ============================================================================
-- Claim C10: empty/missing ledgers verify as valid
-- ============================================================================

/-- C10.  Verifying a ledger whose directory does not exist (`none`) or
contains no transaction files (`some []`) returns `valid = true`,
`errors = []` and `count = 0`. -/
theorem verifyTransactionChain_empty (sha256hex : String → String) :
    verifyTransactionChain sha256hex none =
      { valid := true, errors := [], count := 0 } ∧
    verifyTransactionChain sha256hex (some []) =
      { valid := true, errors := [], count := 0 } :=
  ⟨rfl, rfl⟩

-- ============================================================================
-- Claim C6: append-then-verify round trip
-- ============================================================================

theorem verifyFrom_append (sha256hex : String → String) :
    ∀ (l1 : List TransactionRecord) (e : String) (i : Nat)
      (l2 : List TransactionRecord),
      verifyFrom sha256hex e i (l1 ++ l2) =
        verifyFrom sha256hex e i l1 ++
          verifyFrom sha256hex
            (l1.foldl (fun _ r => r.chain.transaction_hash) e)
            (i + l1.length) l2 := by
  intro l1
  induction l1 with
  | nil => intro e i l2; simp [verifyFrom]
  | cons r rest ih =>
    intro e i l2
    simp only [List.cons_append, verifyFrom, List.foldl_cons,
      List.length_cons, List.append_eq]
    rw [ih]
    have hidx : i + (rest.length + 1) = (i + 1) + rest.length := by omega
    rw [hidx]
    simp [List.append_assoc]

theorem getLastTransactionHash_foldl_aux :
    ∀ (st : List TransactionRecord) (a : String),
      (match st.getLast? with
       | some r => r.chain.transaction_hash
       | none => a) =
        st.foldl (fun _ r => r.chain.transaction_hash) a := by
  intro st
  induction st with
  | nil => intro a; rfl
  | cons r rest ih =>
    intro a
    cases rest with
    | nil => rfl
    | cons r2 rest2 =>
      rw [List.getLast?_cons_cons]
      have h2 := ih r.chain.transaction_hash
      cases hg : (r2 :: rest2).getLast? with
      | none =>
        exact absurd (List.getLast?_eq_none_iff.mp hg) (by simp)
      | some x =>
        rw [hg] at h2
        simpa [List.foldl_cons] using h2

theorem getLastTransactionHash_foldl (st : List TransactionRecord) :
    getLastTransactionHash st =
      st.foldl (fun _ r => r.chain.transaction_hash) GENESIS_HASH :=
  getLastTransactionHash_foldl_aux st GENESIS_HASH

theorem createTransactionRecord_prev (sha256hex : String → String)
    (options : CreateTransactionOptions) (st : List TransactionRecord) :
    (createTransactionRecord sha256hex options st).chain.previous_transaction_hash =
      getLastTransactionHash st := rfl

theorem createTransactionRecord_selfhash (sha256hex : String → String)
    (options : CreateTransactionOptions) (st : List TransactionRecord) :
    hashTransactionContent sha256hex
        (createTransactionRecord sha256hex options st) =
      (createTransactionRecord sha256hex options st).chain.transaction_hash :=
  rfl

theorem appendTransaction_verifyFrom (sha256hex : String → String)
    (options : CreateTransactionOptions) (st : List TransactionRecord)
    (h : verifyFrom sha256hex GENESIS_HASH 0 st = []) :
    verifyFrom sha256hex GENESIS_HASH 0
      (appendTransaction sha256hex options st) = [] := by
  rw [appendTransaction, writeTransactionRecord, verifyFrom_append, h]
  simp only [List.nil_append]
  have hprev : (createTransactionRecord sha256hex options st).chain.previous_transaction_hash =
      st.foldl (fun _ r => r.chain.transaction_hash) GENESIS_HASH := by
    rw [createTransactionRecord_prev, getLastTransactionHash_foldl]
  simp only [verifyFrom]
  rw [if_neg (by simp [hprev]), if_neg (by simp [createTransactionRecord_selfhash])]
  rfl

theorem buildLedger_verifyFrom (sha256hex : String → String)
    (optsList : List CreateTransactionOptions) :
    verifyFrom sha256hex GENESIS_HASH 0 (buildLedger sha256hex optsList) = [] := by
  suffices haux : ∀ (l : List CreateTransactionOptions)
      (st : List TransactionRecord),
      verifyFrom sha256hex GENESIS_HASH 0 st = [] →
      verifyFrom sha256hex GENESIS_HASH 0
        (l.foldl (fun st options => appendTransaction sha256hex options st) st) = [] from
    haux optsList [] rfl
  intro l
  induction l with
  | nil => intro st h; exact h
  | cons o rest ih =>
    intro st h
    exact ih _ (appendTransaction_verifyFrom sha256hex o st h)

theorem buildLedger_length (sha256hex : String → String)
    (optsList : List CreateTransactionOptions) :
    (buildLedger sha256hex optsList).length = optsList.length := by
  suffices haux : ∀ (l : List CreateTransactionOptions)
      (st : List TransactionRecord),
      (l.foldl (fun st options => appendTransaction sha256hex options st) st).length =
        st.length + l.length from by
    simpa using haux optsList []
  intro l
  induction l with
  | nil => intro st; simp
  | cons o rest ih =>
    intro st
    rw [List.foldl_cons, ih]
    simp [appendTransaction, writeTransactionRecord]
    omega

/-- Record-sequence-level round trip: appending `k` records (each one's
`previous_transaction_hash` read from the chain so far, the first one
being `GENESIS_HASH`) and walking them in append order verifies with
`valid = true`, `count = k` and no errors — for every `k`, every record
contents and every digest function.  The chain logic is therefore sound;
claim C6 nevertheless fails at the storage-key layer, where the walk order
is the lexicographic order of the zero-padded file names (see the claim
theorem below). -/
theorem ledger_roundtrip (sha256hex : String → String)
    (optsList : List CreateTransactionOptions) :
    verifyTransactionChain sha256hex (some (buildLedger sha256hex optsList)) =
      { valid := true, errors := [], count := optsList.length } := by
  by_cases he : (buildLedger sha256hex optsList).isEmpty
  · have hlen : optsList.length = 0 := by
      rw [← buildLedger_length sha256hex optsList]
      exact List.length_eq_zero.mpr (List.isEmpty_iff.mp he)
    simp only [verifyTransactionChain, if_pos he]
    rw [hlen]
  · simp only [verifyTransactionChain, if_neg he]
    rw [buildLedger_verifyFrom, buildLedger_length]
    rfl

set_option maxRecDepth 8192 in
/-- C6.  The claim fails at the storage-key layer: this theorem evaluates
the storage-key code at the state an initially empty directory reaches
after 9999 appends (lexicographically last file `9999_transaction.json`).
The next sequence number is 10000; the file written for it is
`10000_transaction.json` and sorts BEFORE `9999_transaction.json` (it
falls between `0999_` and `1000_`), so the verification walk of the
10000-append ledger visits the newest record out of chain order and
`valid = true, count = k` is lost; and after that write the next sequence
number is again 10000 — derived from the still lexicographically last
`9999_transaction.json` — so the following append overwrites
`10000_transaction.json` (the stored record changes from `recW` to
`recW2`) and the file count does not grow. -/
theorem sequence_key_rollover :
    getNextSequenceNumber dirAt9999 = 10000 ∧
    transactionFileName 10000 = "10000_transaction.json" ∧
    listTransactionFiles (writeTransactionRecordFile recW dirAt9999) =
      ["10000_transaction.json", "9999_transaction.json"] ∧
    getNextSequenceNumber (writeTransactionRecordFile recW dirAt9999) =
      10000 ∧
    (writeTransactionRecordFile recW dirAt9999).lookup
        "10000_transaction.json" = some recW ∧
    (writeTransactionRecordFile recW2
        (writeTransactionRecordFile recW dirAt9999)).lookup
        "10000_transaction.json" = some recW2 ∧
    recW2 ≠ recW ∧
    (writeTransactionRecordFile recW2
        (writeTransactionRecordFile recW dirAt9999)).length =
      (writeTransactionRecordFile recW dirAt9999).length := by
  refine ⟨by decide, by decide, by decide, by decide, by decide, ?_, ?_,
    by decide⟩ <;> decide

-- ============================================================================
-- Claim C5: self-hash construction and tamper evidence
-- ============================================================================

theorem if_singleton_eq_nil {c : Prop} [Decidable c] {e : ChainError}
    (h : (if c then [e] else []) = []) : ¬c := by
  intro hc
  rw [if_pos hc] at h
  cases h

theorem verifyTransactionChain_some_ne_nil (sha256hex : String → String)
    {l : List TransactionRecord} (h : l ≠ []) :
    verifyTransactionChain sha256hex (some l) =
      { valid := (verifyFrom sha256hex GENESIS_HASH 0 l).isEmpty
        errors := verifyFrom sha256hex GENESIS_HASH 0 l
        count := l.length } := by
  simp only [verifyTransactionChain]
  rw [if_neg (by simpa [List.isEmpty_iff] using h)]

theorem mem_verifyFrom_cons_of_mem_checks (sha256hex : String → String)
    {e : String} {i : Nat} {r : TransactionRecord}
    {rest : List TransactionRecord} {err : ChainError}
    (h : err ∈
      (if r.chain.previous_transaction_hash ≠ e then
        [ChainError.chainBreak i e r.chain.previous_transaction_hash]
       else []) ++
      (if hashTransactionContent sha256hex r ≠ r.chain.transaction_hash then
        [ChainError.hashMismatch i (hashTransactionContent sha256hex r)
          r.chain.transaction_hash]
       else [])) :
    err ∈ verifyFrom sha256hex e i (r :: rest) := by
  simp only [verifyFrom, List.append_assoc, List.mem_append] at h ⊢
  tauto

theorem verifyFrom_congr_head (sha256hex : String → String)
    (e : String) (i : Nat) (r r' : TransactionRecord)
    (rest : List TransactionRecord)
    (hch : r'.chain = r.chain)
    (hcs : hashContentString r' = hashContentString r) :
    verifyFrom sha256hex e i (r' :: rest) =
      verifyFrom sha256hex e i (r :: rest) := by
  have h1 : r'.chain.previous_transaction_hash =
      r.chain.previous_transaction_hash := by rw [hch]
  have h2 : r'.chain.transaction_hash = r.chain.transaction_hash := by
    rw [hch]
  have h3 : hashTransactionContent sha256hex r' =
      hashTransactionContent sha256hex r := by
    show sha256 sha256hex (hashContentString r') =
      sha256 sha256hex (hashContentString r)
    rw [hcs]
  simp only [verifyFrom, h1, h2, h3]

/-- C5 (amended).  First part: for every record produced by
`createTransactionRecord`, the stored `transaction_hash` equals the digest
of the record's canonical serialization — which covers every field except
`chain.transaction_hash` and, contrary to the frozen claim, also except
`disclaimer`.  Second part: that serialization is unchanged under any
replacement of the disclaimer, making the omission explicit.  Third part:
in a ledger that verifies cleanly, replacing the record at index `i` by a
record that differs in a single stored field other than the disclaimer —
(a) a different `previous_transaction_hash`, or (b) a different
`transaction_hash` with unchanged content, or (c) unchanged `chain` with a
content change that alters the digest (for the truncated SHA-256 this is a
collision-freeness assumption, made explicit as a hypothesis) — makes
re-verification return `valid = false` with at least one error whose record
index is at or after `i`.  Fourth part: mutating only the `disclaimer` of
the record at index `i` goes undetected — the ledger re-verifies with
`valid = true`, no errors and the full count (the frozen claim fails
there; see the counterexample). -/
theorem transactionRecord_hash_tamper_evident (sha256hex : String → String) :
    (∀ (options : CreateTransactionOptions) (st : List TransactionRecord),
      (createTransactionRecord sha256hex options st).chain.transaction_hash =
        sha256 sha256hex
          (hashContentString (createTransactionRecord sha256hex options st))) ∧
    (∀ (r : TransactionRecord) (d : String),
      hashContentString { r with disclaimer := d } = hashContentString r) ∧
    (∀ (recs : List TransactionRecord) (i : Nat) (hi : i < recs.length)
        (r' : TransactionRecord),
      verifyFrom sha256hex GENESIS_HASH 0 recs = [] →
      (r'.chain.previous_transaction_hash ≠
          recs[i].chain.previous_transaction_hash ∨
        (r'.chain.transaction_hash ≠ recs[i].chain.transaction_hash ∧
          hashContentString r' = hashContentString recs[i]) ∨
        (r'.chain = recs[i].chain ∧
          hashTransactionContent sha256hex r' ≠
            hashTransactionContent sha256hex recs[i])) →
      (verifyTransactionChain sha256hex (some (recs.set i r'))).valid = false ∧
      ∃ err ∈ (verifyTransactionChain sha256hex (some (recs.set i r'))).errors,
        i ≤ chainErrorFile err) ∧
    (∀ (recs : List TransactionRecord) (i : Nat) (hi : i < recs.length)
        (d : String),
      verifyFrom sha256hex GENESIS_HASH 0 recs = [] →
      verifyTransactionChain sha256hex
          (some (recs.set i { recs[i] with disclaimer := d })) =
        { valid := true, errors := [], count := recs.length }) := by
  refine ⟨?_, ?_, ?_, ?_⟩
  · intro options st
    rfl
  · intro r d
    rfl
  · intro recs i hi r' hvalid hcase
    have hdecomp : recs = recs.take i ++ recs[i] :: recs.drop (i + 1) := by
      conv_lhs => rw [← List.take_append_drop i recs]
      rw [List.drop_eq_getElem_cons hi]
    have hset : recs.set i r' = recs.take i ++ r' :: recs.drop (i + 1) := by
      rw [List.set_eq_take_append_cons_drop, if_pos hi]
    have hlen : (recs.take i).length = i := by
      simp [List.length_take, Nat.min_eq_left hi.le]
    -- facts about the intact chain
    rw [hdecomp, verifyFrom_append, List.append_eq_nil] at hvalid
    obtain ⟨hpre, hmid⟩ := hvalid
    simp only [verifyFrom, List.append_eq_nil] at hmid
    obtain ⟨⟨hchain, hhash⟩, _⟩ := hmid
    have hx_prev : recs[i].chain.previous_transaction_hash =
        (recs.take i).foldl (fun _ r => r.chain.transaction_hash)
          GENESIS_HASH := by
      have := if_singleton_eq_nil hchain
      simpa using this
    have hx_hash : hashTransactionContent sha256hex recs[i] =
        recs[i].chain.transaction_hash := by
      have := if_singleton_eq_nil hhash
      simpa using this
    -- the mutated walk
    have hnn : recs.take i ++ r' :: recs.drop (i + 1) ≠ [] := by simp
    rw [hset, verifyTransactionChain_some_ne_nil sha256hex hnn]
    rw [verifyFrom_append, hpre, List.nil_append]
    -- the error produced at position i
    have herr : ∃ err ∈
        (if r'.chain.previous_transaction_hash ≠
            (recs.take i).foldl (fun _ r => r.chain.transaction_hash)
              GENESIS_HASH then
          [ChainError.chainBreak (0 + (recs.take i).length)
            ((recs.take i).foldl (fun _ r => r.chain.transaction_hash)
              GENESIS_HASH)
            r'.chain.previous_transaction_hash]
         else []) ++
        (if hashTransactionContent sha256hex r' ≠
            r'.chain.transaction_hash then
          [ChainError.hashMismatch (0 + (recs.take i).length)
            (hashTransactionContent sha256hex r')
            r'.chain.transaction_hash]
         else []),
        i ≤ chainErrorFile err := by
      rcases hcase with hprev | ⟨hth, hcontent⟩ | ⟨hch, hdig⟩
      · refine ⟨ChainError.chainBreak (0 + (recs.take i).length)
          ((recs.take i).foldl (fun _ r => r.chain.transaction_hash)
            GENESIS_HASH)
          r'.chain.previous_transaction_hash, ?_, ?_⟩
        · rw [List.mem_append, if_pos (by rw [← hx_prev]; exact hprev)]
          exact Or.inl (List.mem_singleton_self _)
        · simp [chainErrorFile, hlen]
      · refine ⟨ChainError.hashMismatch (0 + (recs.take i).length)
          (hashTransactionContent sha256hex r')
          r'.chain.transaction_hash, ?_, ?_⟩
        · rw [List.mem_append]
          refine Or.inr ?_
          rw [if_pos ?_]
          · exact List.mem_singleton_self _
          · rw [hashTransactionContent, hcontent]
            rw [show sha256 sha256hex (hashContentString recs[i]) =
              hashTransactionContent sha256hex recs[i] from rfl]
            rw [hx_hash]
            exact fun he => hth he.symm
        · simp [chainErrorFile, hlen]
      · refine ⟨ChainError.hashMismatch (0 + (recs.take i).length)
          (hashTransactionContent sha256hex r')
          r'.chain.transaction_hash, ?_, ?_⟩
        · rw [List.mem_append]
          refine Or.inr ?_
          rw [if_pos ?_]
          · exact List.mem_singleton_self _
          · rw [show r'.chain.transaction_hash =
              recs[i].chain.transaction_hash from by rw [hch]]
            rw [← hx_hash]
            exact hdig
        · simp [chainErrorFile, hlen]
    obtain ⟨err, hmem, hfile⟩ := herr
    have hmem2 : err ∈ verifyFrom sha256hex
        ((recs.take i).foldl (fun _ r => r.chain.transaction_hash)
          GENESIS_HASH)
        (0 + (recs.take i).length) (r' :: recs.drop (i + 1)) :=
      mem_verifyFrom_cons_of_mem_checks sha256hex hmem
    constructor
    · have hne : verifyFrom sha256hex
          ((recs.take i).foldl (fun _ r => r.chain.transaction_hash)
            GENESIS_HASH)
          (0 + (recs.take i).length) (r' :: recs.drop (i + 1)) ≠ [] :=
        List.ne_nil_of_mem hmem2
      cases hcc : (verifyFrom sha256hex
          ((recs.take i).foldl (fun _ r => r.chain.transaction_hash)
            GENESIS_HASH)
          (0 + (recs.take i).length) (r' :: recs.drop (i + 1))).isEmpty
      · rfl
      · exact absurd (List.isEmpty_iff.mp hcc) hne
    · exact ⟨err, hmem2, hfile⟩
  · intro recs i hi d hvalid
    have hdecomp : recs = recs.take i ++ recs[i] :: recs.drop (i + 1) := by
      conv_lhs => rw [← List.take_append_drop i recs]
      rw [List.drop_eq_getElem_cons hi]
    have hset : recs.set i ({ recs[i] with disclaimer := d }) =
        recs.take i ++
          ({ recs[i] with disclaimer := d }) :: recs.drop (i + 1) := by
      rw [List.set_eq_take_append_cons_drop, if_pos hi]
    rw [hdecomp, verifyFrom_append, List.append_eq_nil] at hvalid
    obtain ⟨hpre, hmid⟩ := hvalid
    have hnn : recs.take i ++
        ({ recs[i] with disclaimer := d }) :: recs.drop (i + 1) ≠ [] := by
      simp
    have hlenset : (recs.take i ++
        ({ recs[i] with disclaimer := d }) :: recs.drop (i + 1)).length =
        recs.length := by
      rw [← hset]
      exact List.length_set recs i _
    rw [hset, verifyTransactionChain_some_ne_nil sha256hex hnn]
    rw [verifyFrom_append, hpre, List.nil_append]
    rw [verifyFrom_congr_head sha256hex _ _ recs[i]
      ({ recs[i] with disclaimer := d }) _ rfl rfl, hmid, hlenset]
    rfl

set_option maxRecDepth 8192 in
theorem transactionRecord_hash_tamper_evident_witness :
    ((createTransactionRecord shWit optsW []).chain.transaction_hash =
      sha256 shWit
        (hashContentString (createTransactionRecord shWit optsW []))) ∧
    (hashContentString { recW with disclaimer := "tampered" } =
      hashContentString recW) ∧
    ((verifyTransactionChain shWit
        (some ([recW, recW2].set 1 recW2'))).valid = false ∧
      ∃ err ∈ (verifyTransactionChain shWit
          (some ([recW, recW2].set 1 recW2'))).errors,
        1 ≤ chainErrorFile err) ∧
    (verifyTransactionChain shWit (some ([recW].set 0 recWD)) =
      { valid := true, errors := [], count := 1 }) :=
  ⟨(transactionRecord_hash_tamper_evident shWit).1 optsW [],
   (transactionRecord_hash_tamper_evident shWit).2.1 recW "tampered",
   (transactionRecord_hash_tamper_evident shWit).2.2.1 [recW, recW2] 1
     (by decide) recW2' (buildLedger_verifyFrom shWit [optsW, optsW])
     (Or.inr (Or.inr ⟨rfl, by decide⟩)),
   (transactionRecord_hash_tamper_evident shWit).2.2.2 [recW] 0 (by decide)
     "tampered" (buildLedger_verifyFrom shWit [optsW])⟩

set_option maxRecDepth 8192 in
/-- Counterexample to C5 as frozen: `recWD` differs from the sealed record
`recW` in exactly one stored field, the `disclaimer` (restoring that field
gives back `recW`) — yet the serialization hashed by
`hashTransactionContent` omits the disclaimer, so the mutated ledger
re-verifies with `valid = true` and no errors instead of the claimed
`valid = false` with an error at or after the mutated index. -/
theorem transaction_disclaimer_mutation_cex :
    recWD.disclaimer ≠ recW.disclaimer ∧
    ({ recWD with disclaimer := recW.disclaimer } = recW) ∧
    hashContentString recWD = hashContentString recW ∧
    verifyTransactionChain shWit (some ([recW].set 0 recWD)) =
      { valid := true, errors := [], count := 1 } := by
  refine ⟨by decide, rfl, rfl, ?_⟩
  decide

-- ============================================================================
-- Claim C9: formats of the emitted hashes
-- ============================================================================

theorem toInt32_bounds (x : Int) :
    -2147483648 ≤ toInt32 x ∧ toInt32 x < 2147483648 := by
  rw [toInt32]
  have h1 : 0 ≤ x.emod 4294967296 := Int.emod_nonneg x (by decide)
  have h2 : x.emod 4294967296 < 4294967296 :=
    Int.emod_lt_of_pos x (by decide)
  split <;> omega

theorem simpleHash_fold_bounds (l : List Char) :
    -2147483648 ≤ l.foldl
        (fun (hash : Int) (c : Char) =>
          toInt32 (toInt32 (hash * 32) - hash + c.toNat)) 0 ∧
      l.foldl
        (fun (hash : Int) (c : Char) =>
          toInt32 (toInt32 (hash * 32) - hash + c.toNat)) 0 < 2147483648 := by
  suffices haux : ∀ (l : List Char) (acc : Int),
      -2147483648 ≤ acc → acc < 2147483648 →
      -2147483648 ≤ l.foldl
          (fun (hash : Int) (c : Char) =>
            toInt32 (toInt32 (hash * 32) - hash + c.toNat)) acc ∧
        l.foldl
          (fun (hash : Int) (c : Char) =>
            toInt32 (toInt32 (hash * 32) - hash + c.toNat)) acc <
          2147483648 from
    haux l 0 (by decide) (by decide)
  intro l
  induction l with
  | nil => intro acc h1 h2; exact ⟨h1, h2⟩
  | cons c cs ih =>
    intro acc _ _
    rw [List.foldl_cons]
    have hb := toInt32_bounds (toInt32 (acc * 32) - acc + c.toNat)
    exact ih _ hb.1 hb.2

theorem hexReprAux_length :
    ∀ (fuel : Nat) (k : Nat) (n : Nat) (acc : List Char), n < 16 ^ k →
      (hexReprAux fuel n acc).length ≤ k + acc.length := by
  intro fuel
  induction fuel with
  | zero => intro k n acc _; simp [hexReprAux]
  | succ f ih =>
    intro k n acc hn
    rw [hexReprAux]
    split
    · omega
    · rename_i hn0
      cases k with
      | zero =>
        simp only [pow_zero] at hn
        omega
      | succ k' =>
        have hdiv : n / 16 < 16 ^ k' := by
          rw [Nat.div_lt_iff_lt_mul (by decide : 0 < 16)]
          calc n < 16 ^ (k' + 1) := hn
          _ = 16 ^ k' * 16 := by rw [pow_succ]
        have := ih k' (n / 16) (hexDigit (n % 16) :: acc) hdiv
        simp only [List.length_cons] at this
        omega

theorem hexRepr_length_le8 {n : Nat} (h : n < 16 ^ 8) :
    (hexRepr n).length ≤ 8 := by
  rw [hexRepr]
  split
  · decide
  · have := hexReprAux_length (n + 1) 8 n [] h
    simpa using this

theorem padStart_length {s : String} {k : Nat} {c : Char}
    (h : s.length ≤ k) : (padStart s k c).length = k := by
  rw [padStart, String.length_append, String.length_mk,
    List.length_replicate]
  omega

/-- The `simpleHash` fingerprint is always exactly 8 hex characters: the
32-bit accumulator has absolute value at most 2^31 < 16^8, so its hex
representation has at most 8 digits and `padStart(8, '0')` fills it to
exactly 8. -/
theorem simpleHash_length (str : String) : (simpleHash str).length = 8 := by
  rw [simpleHash]
  apply padStart_length
  apply hexRepr_length_le8
  have hb := simpleHash_fold_bounds str.data
  have : (2147483648 : Nat) ≤ 16 ^ 8 := by decide
  omega

/-- C9 (amended).  The hashes the system emits have two distinct shapes:
the detector's `input_hash` is the non-cryptographic `simpleHash`
fingerprint, always exactly 8 hex characters; the ledger's chain hashes
(and the other SHA-256-derived hashes) are 16-hex-character (64-bit)
truncations of the full 64-hex-character SHA-256 digest. -/
theorem emitted_hash_formats :
    (∀ (cfg : OperatorDetectorConfig) (text : String),
      (detect cfg text).input_hash = simpleHash text ∧
      (simpleHash text).length = 8) ∧
    (∀ (sha256hex : String → String),
      (∀ s, (sha256hex s).length = 64) →
      ∀ (options : CreateTransactionOptions) (st : List TransactionRecord),
        ((createTransactionRecord sha256hex options
            st).chain.transaction_hash).length = 16) := by
  constructor
  · intro cfg text
    exact ⟨rfl, simpleHash_length text⟩
  · intro sha256hex h64 options st
    have heq : (createTransactionRecord sha256hex options
        st).chain.transaction_hash =
        String.mk ((sha256hex (hashContentString
          (createTransactionRecord sha256hex options st))).data.take 16) := rfl
    rw [heq, String.length_mk, List.length_take]
    have h1 : (sha256hex (hashContentString
        (createTransactionRecord sha256hex options st))).data.length = 64 :=
      h64 (hashContentString (createTransactionRecord sha256hex options st))
    omega

set_option maxRecDepth 8192 in
/-- Counterexample for C9 as frozen: the detector's `input_hash` is the
8-hex-character `simpleHash` fingerprint, not a 16-hex-character truncation
of a cryptographic digest. -/
theorem detect_input_hash_format_cex :
    (detect cfgCheck "for purposes of this document, Widget means a gadget.").input_hash.length ≠ 16 ∧
    (detect cfgCheck "for purposes of this document, Widget means a gadget.").input_hash = simpleHash "for purposes of this document, Widget means a gadget." ∧
    (simpleHash "for purposes of this document, Widget means a gadget.").length = 8 := by
  refine ⟨?_, rfl, ?_⟩ <;> decide

theorem emitted_hash_formats_witness :
    ((detect cfgCheck "for purposes of this document, Widget means a gadget.").input_hash = simpleHash "for purposes of this document, Widget means a gadget." ∧
      (simpleHash "for purposes of this document, Widget means a gadget.").length = 8) ∧
    ((createTransactionRecord (fun _ => digest64) optsW
        []).chain.transaction_hash).length = 16 :=
  ⟨emitted_hash_formats.1 cfgCheck "for purposes of this document, Widget means a gadget.",
   emitted_hash_formats.2 (fun _ => digest64) (fun _ => rfl) optsW []⟩
